import Mathlib

/-!
The assignment core of ktuo over an etcd store.

A shallow embedding of `store/etcd/assign.go` and `store/etcd/data_state.go`.

* A Go `error` is an `Option String` (`none` is `nil`).
* A Go call either returns or panics: `Outcome`.
* The etcd client is modelled by a versioned key-value `Store` inside a `World`
  that also carries the transport failures still to come and the requests sent.
* The `model` and `utils` packages are not among the sources. Their data
  declarations are modelled from the specification; their functions on keys
  and on serialized records are taken as the parameter `Model`.
-/

set_option linter.dupNamespace false

namespace Ktuo

/-- A Go `error`: `none` is `nil`. -/
abbrev GoError := Option String

/-- How a Go call ends: it returns a value or it panics. -/
inductive Outcome (α : Type) where
  | ret (a : α)
  | panic (msg : String)
deriving DecidableEq, Repr

/-! ## The `model` package -/

/-- Modelled from the spec: the lifecycle label `Create` of `model` (constant absent from the sources). -/
def Create : String := "Create"

/-- Modelled from the spec: the lifecycle label `Running` of `model` (constant absent from the sources). -/
def Running : String := "Running"

/-- Modelled from the spec: the lifecycle label `Failed` of `model` (constant absent from the sources). -/
def Failed : String := "Failed"

/-- Modelled from the spec: the lifecycle label `Remove` of `model` (constant absent from the sources). -/
def Remove : String := "Remove"

/-- Modelled from the spec: the value `CanRun` of `model`, written into a local runnable
marker (constant absent from the sources). -/
def CanRun : String := "CanRun"

/-- Modelled from the spec: the topology `OneRuntime` of `model` (constant absent from the sources). -/
def OneRuntime : String := "OneRuntime"

/-- Modelled from the spec: the topology `Broadcast` of `model` (constant absent from the sources). -/
def Broadcast : String := "Broadcast"

/-- Modelled from the spec: the record `model.State` (type declaration absent from the
sources), with the fields the specification lists for a task state. -/
structure State where
  Kind : String
  Action : String
  State : String
  RuntimeNode : String
  InRuntime : Bool
deriving DecidableEq, Repr

/-- Modelled from the spec: the predicate `IsRunning` of `model.State` (absent from the sources). -/
def State.IsRunning (s : Ktuo.State) : Bool := s.State == Running

/-- Modelled from the spec: the predicate `IsCreate` of `model.State` (absent from the sources). -/
def State.IsCreate (s : Ktuo.State) : Bool := s.State == Create

/-- Modelled from the spec: the predicate `IsFailed` of `model.State` (absent from the sources). -/
def State.IsFailed (s : Ktuo.State) : Bool := s.State == Failed

/-- Modelled from the spec: the predicate `IsRemove` of `model.State` (absent from the sources). -/
def State.IsRemove (s : Ktuo.State) : Bool := s.State == Remove

/-- Modelled from the spec: the predicate `IsOneRuntime` of `model.State` (absent from the sources). -/
def State.IsOneRuntime (s : Ktuo.State) : Bool := s.Kind == OneRuntime

/-- Modelled from the spec: the predicate `IsBroadcast` of `model.State` (absent from the sources). -/
def State.IsBroadcast (s : Ktuo.State) : Bool := s.Kind == Broadcast

/-- Modelled from the spec: the record `model.KeyVal` (type declaration absent from the
sources): the key of the state record, a snapshot of the state and the revision to read
the data record at. -/
structure KeyVal where
  Key : String
  State : State
  Version : Int
deriving DecidableEq, Repr

/-- Modelled from the spec: the functions of the `model` package that `assign.go` and
`data_state.go` call (absent from the sources). The specification leaves the encoding of a
record and the key prefixes open, so they are parameters: `ValueToState` decodes a stored
record, `UpdateState value runtimeNode state action` re-encodes it with fields updated, and the
others derive key names. -/
structure Model where
  ValueToState : String → State × GoError
  UpdateState : String → String → String → String → String × GoError
  TaskName : String → String
  FullGlobalTask : String → String
  FullGlobalTaskState : String → String
  ToLocalTask : String → String → String

/-! ## The etcd store -/

/-- One key-value of etcd (`mvccpb.KeyValue`). -/
structure KeyValue where
  Key : String
  Value : String
  CreateRevision : Nat
  ModRevision : Nat
  Version : Nat
deriving DecidableEq, Repr

/-- The keyspace: the current revision, the live keys, and the superseded snapshots
(newest first), each with the revision it was current at. -/
structure Store where
  revision : Nat
  kvs : List KeyValue
  past : List (Nat × List KeyValue)
deriving DecidableEq, Repr

/-- The live key-value stored under a key. -/
def lookup (kvs : List KeyValue) (key : String) : Option KeyValue :=
  kvs.find? (fun kv => kv.Key == key)

/-- The live key-value stored under a key. -/
def Store.find? (s : Store) (key : String) : Option KeyValue := lookup s.kvs key

/-- The value stored under a key, if any. -/
def Store.value? (s : Store) (key : String) : Option String :=
  (s.find? key).map KeyValue.Value

/-- The modification revision of a key; 0 when the key does not exist. -/
def Store.modRevision (s : Store) (key : String) : Nat :=
  match s.find? key with
  | some kv => kv.ModRevision
  | none => 0

/-- A put of one key at revision `rev`. -/
def putKV (rev : Nat) (key value : String) : List KeyValue → List KeyValue
  | [] => [{ Key := key, Value := value, CreateRevision := rev, ModRevision := rev, Version := 1 }]
  | kv :: rest =>
    if kv.Key == key then
      { kv with Value := value, ModRevision := rev, Version := kv.Version + 1 } :: rest
    else kv :: putKV rev key value rest

/-- All puts of one transaction, at the same revision. -/
def putAll (rev : Nat) (puts : List (String × String)) (kvs : List KeyValue) : List KeyValue :=
  puts.foldl (fun acc p => putKV rev p.1 p.2 acc) kvs

/-- The store after a transaction's puts are applied: one new revision. -/
def Store.commit (s : Store) (puts : List (String × String)) : Store :=
  { revision := s.revision + 1
    kvs := putAll (s.revision + 1) puts s.kvs
    past := (s.revision, s.kvs) :: s.past }

/-- The store after a delete of one key: a new revision when the key existed. -/
def Store.delete (s : Store) (key : String) : Store :=
  if (s.find? key).isSome then
    { revision := s.revision + 1
      kvs := s.kvs.filter (fun kv => !(kv.Key == key))
      past := (s.revision, s.kvs) :: s.past }
  else s

/-- The live keys as of a revision. A revision `≤ 0` is the current one, a revision beyond
the current one is an error, and so is one older than every kept snapshot. -/
def Store.asOf (s : Store) (rev : Int) : Except String (List KeyValue) :=
  if rev ≤ 0 then .ok s.kvs
  else if (s.revision : Int) < rev then .error "etcdserver: mvcc: required revision is a future revision"
  else if rev = s.revision then .ok s.kvs
  else
    match s.past.find? (fun p => decide ((p.1 : Int) ≤ rev)) with
    | some p => .ok p.2
    | none => .error "etcdserver: mvcc: required revision has been compacted"

/-- A comparison of a transaction: `clientv3.Compare(clientv3.ModRevision(key), "=", v)`. -/
structure Cmp where
  Key : String
  ModRevision : Int
deriving DecidableEq, Repr

/-- Whether a comparison holds in a store. -/
def Cmp.holds (s : Store) (c : Cmp) : Bool := decide ((s.modRevision c.Key : Int) = c.ModRevision)

/-- A request sent to etcd. -/
inductive Request where
  | get (key : String) (rev : Int)
  | delete (key : String)
  | txn (cmps : List Cmp) (puts : List (String × String))
deriving DecidableEq, Repr

/-- The store together with the transport failures still to come (one flag per request,
`true` fails it; none left means no failure) and the requests sent, newest first. -/
structure World where
  store : Store
  faults : List Bool
  trace : List Request
deriving DecidableEq, Repr

/-- Send a request: record it and consume one failure flag. -/
def World.send (w : World) (r : Request) : Bool × World :=
  match w.faults with
  | [] => (false, { w with trace := r :: w.trace })
  | f :: fs => (f, { w with faults := fs, trace := r :: w.trace })

/-- The response of a get (`clientv3.GetResponse`). -/
structure GetResponse where
  Kvs : List KeyValue
deriving DecidableEq, Repr

/-- `KV.Get(ctx, key, clientv3.WithRev(rev))`; `rev = 0` is a get without option. -/
def Get (w : World) (key : String) (rev : Int) : Except String GetResponse × World :=
  match w.send (.get key rev) with
  | (true, w1) => (.error "transport", w1)
  | (false, w1) =>
    match w1.store.asOf rev with
    | .error e => (.error e, w1)
    | .ok kvs => (.ok { Kvs := (lookup kvs key).toList }, w1)

/-- `KV.Delete(ctx, key)`. -/
def Delete (w : World) (key : String) : GoError × World :=
  match w.send (.delete key) with
  | (true, w1) => (some "transport", w1)
  | (false, w1) => (none, { w1 with store := w1.store.delete key })

/-- `Txn(ctx).If(cmps...).Then(puts...).Commit()`, the puts given as key and value. The
result is the `Succeeded` flag. etcd refuses a transaction that puts one key twice. -/
def Txn (w : World) (cmps : List Cmp) (puts : List (String × String)) : Except String Bool × World :=
  match w.send (.txn cmps puts) with
  | (true, w1) => (.error "transport", w1)
  | (false, w1) =>
    if !(puts.map Prod.fst).Nodup then (.error "etcdserver: duplicate key given in txn request", w1)
    else if cmps.all (Cmp.holds w1.store) then (.ok true, { w1 with store := w1.store.commit puts })
    else (.ok false, w1)

/-! ## The runtime node registry and the lock -/

/-- The registry `rwmap.RWMap[string, string]`, as the list of its entries: `Len` is the
length, `Keys` the first components, `Range` visits the entries in order. It does not change
during a call. -/
abbrev Registry := List (String × String)

/-- Modelled from the spec: `utils.SliceRandOne` (absent from the sources) picks one element
of the slice at random; `rnd` is the random draw. -/
def SliceRandOne (s : List String) (rnd : Nat) : String := s.getD (rnd % s.length) ""

/-- What the session and the `TryLock` of `concurrency.Mutex` answer; the keys of the lock
itself are outside the modelled keyspace. -/
inductive LockOutcome where
  | sessionFailed (e : String)
  | lockFailed (e : String)
  | acquired
deriving DecidableEq, Repr

/-! ## `assign.go` and `data_state.go` -/

/-- The constant `maxRetry` of `data_state.go`. -/
def maxRetry : Nat := 1

/-- The method `selectRuntimeNode` of `assign.go`. -/
def selectRuntimeNode (runtimeNode : Registry) (rnd : Nat) : String × GoError :=
  if runtimeNode.length == 0 then ("", some "assign.runtimeNodes.size is 0")
  else (SliceRandOne (runtimeNode.map Prod.fst) rnd, none)

/-- The method `UpdateLocalAndGlobal` of `data_state.go`. When the transaction does not
succeed, the error built in the failure branch is assigned to the `err` that
`rspState, err := ...` declares inside that branch, so the named result keeps the `nil` of
`Commit` and the function returns `nil`; when the get of that branch fails, `rspState` is
`nil` and `rspState.Kvs[0]` is a nil dereference. -/
def UpdateLocalAndGlobal (M : Model) (w : World) (taskName runtimeNode : String)
    (rsp : GetResponse) (action : String) : Outcome GoError × World :=
  match rsp.Kvs with
  | [] => (.panic "index out of range [0] with length 0", w)
  | kv0 :: _ =>
    let modRevision := kv0.ModRevision
    let fullTaskState := M.FullGlobalTaskState taskName
    let ltaskPath := M.ToLocalTask runtimeNode taskName
    if action == "" then (.panic "action is empty", w)
    else
      match M.UpdateState kv0.Value runtimeNode Running action with
      | (_, some e) => (.ret (some e), w)
      | (newValue, none) =>
        match Txn w [{ Key := fullTaskState, ModRevision := modRevision }]
            [(fullTaskState, newValue), (ltaskPath, CanRun)] with
        | (.error e, w1) => (.ret (some e), w1)
        | (.ok succeeded, w1) =>
          if !succeeded then
            match Get w1 fullTaskState 0 with
            | (.error _, w2) => (.panic "invalid memory address or nil pointer dereference", w2)
            | (.ok _, w2) => (.ret none, w2)
          else (.ret none, w1)

/-- The `Range` of the broadcast branch of `assign`: one `UpdateLocalAndGlobal` per registry
entry, with the same `runtimeNode` each time (the visitor does not use its `key`), until one
returns an error; `err` is the variable the visitor assigns. -/
def assignRange (M : Model) (taskName runtimeNode : String) (rspState : GetResponse)
    (action : String) : Registry → GoError → World → Outcome GoError × World
  | [], err, w => (.ret err, w)
  | _ :: rest, _, w =>
    match UpdateLocalAndGlobal M w taskName runtimeNode rspState action with
    | (.panic msg, w1) => (.panic msg, w1)
    | (.ret err, w1) =>
      if err == none then assignRange M taskName runtimeNode rspState action rest err w1
      else (.ret err, w1)

/-- The method `assign` of `assign.go`. -/
def assign (M : Model) (runtimeNode : Registry) (rnd : Nat) (w : World) (oneTask : KeyVal)
    (failover : Bool) : Outcome GoError × World :=
  match Get w oneTask.Key 0 with
  | (.error e, w1) => (.ret (some e), w1)
  | (.ok rspState, w1) =>
    match rspState.Kvs with
    | [] => (.panic "index out of range [0] with length 0", w1)
    | kv0 :: _ =>
      let (state, err) := M.ValueToState kv0.Value
      if !failover && err.isSome then (.ret err, w1)
      else if !failover && state.IsRunning then (.ret none, w1)
      else
        match selectRuntimeNode runtimeNode rnd with
        | (_, some e) => (.ret (some e), w1)
        | (node, none) =>
          let taskName := M.TaskName oneTask.Key
          if taskName == "" then (.ret (some "taskName is empty"), w1)
          else
            match Get w1 (M.FullGlobalTask taskName) oneTask.Version with
            | (.error e, w2) => (.ret (some e), w2)
            | (.ok rsp, w2) =>
              -- `err` is `nil` from here on
              let err : GoError := none
              if rsp.Kvs.length == 0 then (.ret err, w2)
              else if oneTask.State.IsRemove && !oneTask.State.InRuntime
                  && !oneTask.State.IsFailed then
                let w3 := (Delete w2 (M.FullGlobalTask taskName)).2
                let w4 := (Delete w3 (M.FullGlobalTaskState taskName)).2
                (.ret none, w4)
              else
                let node :=
                  if !failover && !state.IsCreate && !state.IsFailed then state.RuntimeNode
                  else node
                if state.IsOneRuntime then
                  UpdateLocalAndGlobal M w2 taskName node rspState state.Action
                else if state.IsBroadcast then
                  assignRange M taskName node rspState state.Action runtimeNode err w2
                else (.ret err, w2)

/-- The method `TryLockUnlock` of `assign.go`: the session and the lock, then `cb`. -/
def TryLockUnlock (lock : LockOutcome) (w : World)
    (cb : World → Outcome GoError × World) : Outcome GoError × World :=
  match lock with
  | .sessionFailed e => (.ret (some e), w)
  | .lockFailed e => (.ret (some e), w)
  | .acquired => cb w

/-- The method `AssignMutexWithCb` of `assign.go`; `cb`, when given, is a function of the
caller that may change the store and may panic. -/
def AssignMutexWithCb (M : Model) (runtimeNode : Registry) (rnd : Nat) (lock : LockOutcome)
    (w : World) (oneTask : KeyVal) (failover : Bool)
    (cb : Option (World → Outcome Unit × World)) : Outcome GoError × World :=
  TryLockUnlock lock w (fun w0 =>
    match assign M runtimeNode rnd w0 oneTask failover with
    | (.panic msg, w1) => (.panic msg, w1)
    | (.ret _, w1) =>
      match cb with
      | none => (.ret none, w1)
      | some f =>
        match f w1 with
        | (.panic msg, w2) => (.panic msg, w2)
        | (.ret _, w2) => (.ret none, w2))

/-- The method `AssignMutex` of `assign.go`. -/
def AssignMutex (M : Model) (runtimeNode : Registry) (rnd : Nat) (lock : LockOutcome)
    (w : World) (oneTask : KeyVal) (failover : Bool) : Outcome Unit × World :=
  match AssignMutexWithCb M runtimeNode rnd lock w oneTask failover none with
  | (.panic msg, w1) => (.panic msg, w1)
  | (.ret _, w1) => (.ret (), w1)

/-- The loop of `UpdateDataAndState`: `n` iterations are left, starting with index `i`.
After the get of one iteration and before its commit other clients may write: `others` is
what they do to the store (`id` when nobody else writes). -/
def UpdateDataAndState.loop (M : Model) (others : Store → Store) (taskName globalData : String)
    (rspModRevision : Int) (state action : String) : Nat → Nat → World → Outcome GoError × World
  | 0, _, w => (.ret none, w)
  | n + 1, i, w =>
    let globalTaskName := M.FullGlobalTask taskName
    let globalTaskStateName := M.FullGlobalTaskState taskName
    match Get w globalTaskStateName 0 with
    | (.error e, w1) => (.ret (some ("get.globalTaskStateName err :" ++ e)), w1)
    | (.ok rspState, w1) =>
      let w1 := { w1 with store := others w1.store }
      match rspState.Kvs with
      | [] => (.panic "index out of range [0] with length 0", w1)
      | kv0 :: _ =>
        let rspStateModRevision := kv0.ModRevision
        match M.UpdateState kv0.Value "" state action with
        | (_, some e) => (.ret (some ("updateTask, onlyUpdateState(CanRun) err :" ++ e)), w1)
        | (newValue, none) =>
          match Txn w1 [{ Key := globalTaskName, ModRevision := rspModRevision },
                { Key := globalTaskStateName, ModRevision := rspStateModRevision }]
              [(globalTaskName, globalData), (globalTaskStateName, newValue)] with
          | (.error e, w2) => (.ret (some e), w2)
          | (.ok succeeded, w2) =>
            if !succeeded then
              if i == maxRetry - 1 then (.ret (some "Transaction execution failed"), w2)
              else UpdateDataAndState.loop M others taskName globalData rspModRevision state
                action n (i + 1) w2
            else (.ret none, w2)

/-- The method `UpdateDataAndState` of `data_state.go`. -/
def UpdateDataAndState (M : Model) (others : Store → Store) (w : World)
    (taskName globalData : String) (rspModRevision : Int) (state action : String) :
    Outcome GoError × World :=
  UpdateDataAndState.loop M others taskName globalData rspModRevision state action maxRetry 0 w

/-! ## A sample instance -/

/-- The fields of a comma-separated record. -/
def splitFields : List Char → List (List Char)
  | [] => [[]]
  | c :: cs =>
    if c == ',' then [] :: splitFields cs
    else
      match splitFields cs with
      | [] => [[c]]
      | f :: fs => (c :: f) :: fs

/-- A sample encoding of a state record: its five fields separated by commas. -/
def exEncode (s : State) : String :=
  s.Kind ++ "," ++ s.Action ++ "," ++ s.State ++ "," ++ s.RuntimeNode ++ "," ++
    (if s.InRuntime then "1" else "0")

/-- The decoding of the sample encoding. -/
def exDecode (v : String) : State × GoError :=
  match splitFields v.data with
  | [k, a, s, r, i] =>
    ({ Kind := String.mk k, Action := String.mk a, State := String.mk s,
       RuntimeNode := String.mk r, InRuntime := String.mk i == "1" }, none)
  | _ => ({ Kind := "", Action := "", State := "", RuntimeNode := "", InRuntime := false },
      some "decode")

/-- A sample `model` package: comma-separated records, and the keys `/tasks/name`,
`/state/name` and `/local/node/name`. -/
def exModel : Model where
  ValueToState := exDecode
  UpdateState v node st act :=
    match exDecode v with
    | (_, some e) => ("", some e)
    | (s, none) => (exEncode { s with RuntimeNode := node, State := st, Action := act }, none)
  TaskName k := if k.data.take 7 == "/state/".data then String.mk (k.data.drop 7) else ""
  FullGlobalTask t := "/tasks/" ++ t
  FullGlobalTaskState t := "/state/" ++ t
  ToLocalTask n t := "/local/" ++ n ++ "/" ++ t

/-- The state key-value of the sample task `build-1`, written at revision 2. -/
def exStateKV (v : String) : KeyValue :=
  { Key := "/state/build-1", Value := v, CreateRevision := 2, ModRevision := 2, Version := 1 }

/-- The data key-value of the sample task `build-1`, written at revision 2. -/
def exDataKV : KeyValue :=
  { Key := "/tasks/build-1", Value := "payload", CreateRevision := 2, ModRevision := 2,
    Version := 1 }

/-- A store at revision 2 that holds the sample task with the state record `v`. -/
def exWorld (v : String) : World :=
  { store := { revision := 2, kvs := [exDataKV, exStateKV v], past := [] }, faults := [],
    trace := [] }

/-- A store at revision 2 that holds only the state record `v` of the sample task. -/
def exWorldNoData (v : String) : World :=
  { store := { revision := 2, kvs := [exStateKV v], past := [] }, faults := [], trace := [] }

/-- A store at revision 2 that holds only the data record of the sample task. -/
def exWorldNoState : World :=
  { store := { revision := 2, kvs := [exDataKV], past := [] }, faults := [], trace := [] }

/-- The store of `exWorld` with transport failures to come on the listed requests. -/
def exWorldWith (v : String) (faults : List Bool) : World :=
  { exWorld v with faults := faults }

/-- The sample task as handed to `assign`, with the state snapshot `v`. -/
def exTask (v : String) : KeyVal :=
  { Key := "/state/build-1", State := (exDecode v).1, Version := 2 }

/-! # Theorems -/

/-! ## The store -/

theorem lookup_putKV_self (rev : Nat) (k v : String) (kvs : List KeyValue) :
    ∃ kv, lookup (putKV rev k v kvs) k = some kv ∧ kv.Value = v ∧ kv.ModRevision = rev := by
  induction kvs with
  | nil =>
    refine ⟨{ Key := k, Value := v, CreateRevision := rev, ModRevision := rev, Version := 1 },
      ?_, rfl, rfl⟩
    simp [putKV, lookup]
  | cons a rest ih =>
    by_cases h : a.Key = k
    · refine ⟨{ a with Value := v, ModRevision := rev, Version := a.Version + 1 }, ?_, rfl, rfl⟩
      simp [putKV, lookup, h]
    · obtain ⟨kv, h1, h2, h3⟩ := ih
      refine ⟨kv, ?_, h2, h3⟩
      simpa [putKV, lookup, h] using h1

theorem lookup_putKV_of_ne (rev : Nat) (k v k' : String) (kvs : List KeyValue) (h : k' ≠ k) :
    lookup (putKV rev k v kvs) k' = lookup kvs k' := by
  induction kvs with
  | nil => simp [putKV, lookup, Ne.symm h]
  | cons a rest ih =>
    by_cases h1 : a.Key = k
    · subst h1
      simp [putKV, lookup, Ne.symm h]
    · by_cases h2 : a.Key = k'
      · subst h2
        simp [putKV, lookup, h1]
      · simpa [putKV, lookup, h1, h2] using ih

theorem lookup_filter_self (k : String) (kvs : List KeyValue) :
    lookup (kvs.filter (fun kv => !(kv.Key == k))) k = none := by
  simp [lookup, List.find?_eq_none]

theorem lookup_filter_of_ne (k k' : String) (kvs : List KeyValue) (h : k' ≠ k) :
    lookup (kvs.filter (fun kv => !(kv.Key == k))) k' = lookup kvs k' := by
  induction kvs with
  | nil => simp [lookup]
  | cons a rest ih =>
    by_cases h1 : a.Key = k
    · subst h1
      have e : lookup (a :: rest) k' = lookup rest k' := by simp [lookup, Ne.symm h]
      rw [e, ← ih, List.filter_cons_of_neg (by simp)]
    · by_cases h2 : a.Key = k'
      · subst h2
        rw [List.filter_cons_of_pos (by simp [h1])]
        simp [lookup]
      · have e : lookup (a :: rest) k' = lookup rest k' := by simp [lookup, h2]
        rw [e, ← ih, List.filter_cons_of_pos (by simp [h1])]
        simp [lookup, h2]

theorem find?_delete_self (s : Store) (k : String) : (s.delete k).find? k = none := by
  unfold Store.delete
  split
  · exact lookup_filter_self k s.kvs
  · rename_i h
    simpa [Store.find?] using h

theorem find?_delete_of_ne (s : Store) (k k' : String) (h : k' ≠ k) :
    (s.delete k).find? k' = s.find? k' := by
  unfold Store.delete
  split
  · exact lookup_filter_of_ne k k' s.kvs h
  · rfl

/-- After a transaction of two puts on distinct keys, what the store holds. -/
theorem find?_commit_two (s : Store) (k1 v1 k2 v2 : String) (h : k1 ≠ k2) :
    (∃ kv, (s.commit [(k1, v1), (k2, v2)]).find? k1 = some kv ∧ kv.Value = v1 ∧
      kv.ModRevision = s.revision + 1) ∧
    (∃ kv, (s.commit [(k1, v1), (k2, v2)]).find? k2 = some kv ∧ kv.Value = v2 ∧
      kv.ModRevision = s.revision + 1) ∧
    ∀ k, k ≠ k1 → k ≠ k2 → (s.commit [(k1, v1), (k2, v2)]).find? k = s.find? k := by
  refine ⟨?_, ?_, ?_⟩
  · obtain ⟨kv, h1, h2, h3⟩ := lookup_putKV_self (s.revision + 1) k1 v1 s.kvs
    refine ⟨kv, ?_, h2, h3⟩
    simp only [Store.find?, Store.commit, putAll, List.foldl]
    rw [lookup_putKV_of_ne _ _ _ _ _ h]
    exact h1
  · simp only [Store.find?, Store.commit, putAll, List.foldl]
    exact lookup_putKV_self _ _ _ _
  · intro k hk1 hk2
    simp only [Store.find?, Store.commit, putAll, List.foldl]
    rw [lookup_putKV_of_ne _ _ _ _ _ hk2, lookup_putKV_of_ne _ _ _ _ _ hk1]

/-! ## Requests without transport failure -/

theorem send_nofault (w : World) (r : Request) (hf : w.faults = []) :
    w.send r = (false, { w with trace := r :: w.trace }) := by
  simp [World.send, hf]

theorem Get_current (w : World) (key : String) (hf : w.faults = []) :
    Get w key 0 = (.ok { Kvs := (w.store.find? key).toList },
      { w with trace := .get key 0 :: w.trace }) := by
  simp [Get, send_nofault w _ hf, Store.asOf, Store.find?]

theorem Get_asOf (w : World) (key : String) (rev : Int) (kvs : List KeyValue)
    (hf : w.faults = []) (h : w.store.asOf rev = .ok kvs) :
    Get w key rev = (.ok { Kvs := (lookup kvs key).toList },
      { w with trace := .get key rev :: w.trace }) := by
  simp [Get, send_nofault w _ hf, h]

theorem Txn_nofault (w : World) (cmps : List Cmp) (puts : List (String × String))
    (hf : w.faults = []) (hnd : (puts.map Prod.fst).Nodup) :
    Txn w cmps puts =
      if cmps.all (Cmp.holds w.store) then
        (.ok true, { w with store := w.store.commit puts, trace := .txn cmps puts :: w.trace })
      else (.ok false, { w with trace := .txn cmps puts :: w.trace }) := by
  simp [Txn, send_nofault w _ hf, hnd]

/-- The transaction of `UpdateLocalAndGlobal` commits when the state key is at the revision
that was read. -/
theorem UpdateLocalAndGlobal_commit (M : Model) (w : World) (taskName node : String)
    (rsp : GetResponse) (action : String) (kv0 : KeyValue) (rest : List KeyValue)
    (newValue : String) (hf : w.faults = []) (hrsp : rsp.Kvs = kv0 :: rest)
    (hact : action ≠ "")
    (hupd : M.UpdateState kv0.Value node Running action = (newValue, none))
    (hne : M.ToLocalTask node taskName ≠ M.FullGlobalTaskState taskName)
    (hrev : w.store.modRevision (M.FullGlobalTaskState taskName) = kv0.ModRevision) :
    UpdateLocalAndGlobal M w taskName node rsp action =
      (.ret none,
        { w with
          store := w.store.commit
            [(M.FullGlobalTaskState taskName, newValue), (M.ToLocalTask node taskName, CanRun)]
          trace := .txn [{ Key := M.FullGlobalTaskState taskName, ModRevision := kv0.ModRevision }]
            [(M.FullGlobalTaskState taskName, newValue), (M.ToLocalTask node taskName, CanRun)]
            :: w.trace }) := by
  have hnd : (([(M.FullGlobalTaskState taskName, newValue),
      (M.ToLocalTask node taskName, CanRun)] : List (String × String)).map Prod.fst).Nodup := by
    simp [Ne.symm hne]
  simp only [UpdateLocalAndGlobal, hrsp, hupd]
  rw [Txn_nofault w _ _ hf hnd]
  simp [hact, Cmp.holds, hrev]

/-- The transaction of `UpdateLocalAndGlobal` changes nothing when the state key is no
longer at the revision that was read, and the call still returns `nil`. -/
theorem UpdateLocalAndGlobal_stale (M : Model) (w : World) (taskName node : String)
    (rsp : GetResponse) (action : String) (kv0 : KeyValue) (rest : List KeyValue)
    (newValue : String) (hf : w.faults = []) (hrsp : rsp.Kvs = kv0 :: rest)
    (hact : action ≠ "")
    (hupd : M.UpdateState kv0.Value node Running action = (newValue, none))
    (hne : M.ToLocalTask node taskName ≠ M.FullGlobalTaskState taskName)
    (hrev : w.store.modRevision (M.FullGlobalTaskState taskName) ≠ kv0.ModRevision) :
    UpdateLocalAndGlobal M w taskName node rsp action =
      (.ret none,
        { w with
          trace := .get (M.FullGlobalTaskState taskName) 0 ::
            .txn [{ Key := M.FullGlobalTaskState taskName, ModRevision := kv0.ModRevision }]
            [(M.FullGlobalTaskState taskName, newValue), (M.ToLocalTask node taskName, CanRun)]
            :: w.trace }) := by
  have hnd : (([(M.FullGlobalTaskState taskName, newValue),
      (M.ToLocalTask node taskName, CanRun)] : List (String × String)).map Prod.fst).Nodup := by
    simp [Ne.symm hne]
  simp only [UpdateLocalAndGlobal, hrsp, hupd]
  rw [Txn_nofault w _ _ hf hnd]
  simp [hact, Cmp.holds, hrev, Get, World.send, hf, Store.asOf]

/-! ## The paths of `assign` -/

/-- When `assign` gets past its guards and the snapshot is not a remove request, it is the
binding step, run on the node it selected. -/
theorem assign_reach (M : Model) (runtimeNode : Registry) (rnd : Nat) (w : World)
    (oneTask : KeyVal) (failover : Bool) (kv0 d : KeyValue) (st : State) (e : GoError)
    (kvs : List KeyValue)
    (hf : w.faults = [])
    (hkey : w.store.find? oneTask.Key = some kv0)
    (hdec : M.ValueToState kv0.Value = (st, e))
    (hgate : failover = true ∨ (e = none ∧ st.State ≠ Running))
    (hreg : runtimeNode ≠ [])
    (hname : M.TaskName oneTask.Key ≠ "")
    (hrev : w.store.asOf oneTask.Version = .ok kvs)
    (hdata : lookup kvs (M.FullGlobalTask (M.TaskName oneTask.Key)) = some d)
    (hsnap : (oneTask.State.IsRemove && !oneTask.State.InRuntime && !oneTask.State.IsFailed)
      = false) :
    assign M runtimeNode rnd w oneTask failover =
      (let node :=
        if !failover && !st.IsCreate && !st.IsFailed then st.RuntimeNode
        else SliceRandOne (runtimeNode.map Prod.fst) rnd
      let w2 : World := { w with
        trace := .get (M.FullGlobalTask (M.TaskName oneTask.Key)) oneTask.Version ::
          .get oneTask.Key 0 :: w.trace }
      if st.IsOneRuntime then
        UpdateLocalAndGlobal M w2 (M.TaskName oneTask.Key) node { Kvs := [kv0] } st.Action
      else if st.IsBroadcast then
        assignRange M (M.TaskName oneTask.Key) node { Kvs := [kv0] } st.Action runtimeNode none w2
      else (.ret none, w2)) := by
  have hlen : (runtimeNode.length == 0) = false := by
    cases runtimeNode with
    | nil => exact absurd rfl hreg
    | cons a l => simp
  have hg : (!failover && e.isSome) = false ∧ (!failover && st.IsRunning) = false := by
    rcases hgate with h | ⟨h1, h2⟩
    · simp [h]
    · simp [h1, State.IsRunning, h2]
  have hf1 : ({ w with trace := Request.get oneTask.Key 0 :: w.trace } : World).faults = [] := hf
  unfold assign
  rw [Get_current w _ hf]
  simp only [hkey, Option.toList, hdec, hg.1, hg.2, selectRuntimeNode, hlen]
  rw [Get_asOf _ _ _ kvs hf1 hrev]
  simp [hname, hdata, hsnap]

theorem SliceRandOne_mem (s : List String) (rnd : Nat) (h : s ≠ []) : SliceRandOne s rnd ∈ s := by
  have hpos : 0 < s.length := List.length_pos.mpr h
  have hlt : rnd % s.length < s.length := Nat.mod_lt _ hpos
  unfold SliceRandOne
  rw [List.getD_eq_getElem _ _ hlt]
  exact List.getElem_mem hlt

theorem modRevision_of_find? (s : Store) (k : String) (kv : KeyValue) (h : s.find? k = some kv) :
    s.modRevision k = kv.ModRevision := by
  simp [Store.modRevision, h]

/-- The one-runtime path of `assign`: one committed transaction on the node `n` that the
call selected. -/
theorem assign_oneRuntime (M : Model) (runtimeNode : Registry) (rnd : Nat) (w : World)
    (oneTask : KeyVal) (failover : Bool) (kv0 d : KeyValue) (st : State) (e : GoError)
    (kvs : List KeyValue) (n : String)
    (hf : w.faults = [])
    (hkey : w.store.find? oneTask.Key = some kv0)
    (hdec : M.ValueToState kv0.Value = (st, e))
    (hgate : failover = true ∨ (e = none ∧ st.State ≠ Running))
    (hreg : runtimeNode ≠ [])
    (hname : M.TaskName oneTask.Key ≠ "")
    (hwell : M.FullGlobalTaskState (M.TaskName oneTask.Key) = oneTask.Key)
    (hrev : w.store.asOf oneTask.Version = .ok kvs)
    (hdata : lookup kvs (M.FullGlobalTask (M.TaskName oneTask.Key)) = some d)
    (hs : (oneTask.State.IsRemove && !oneTask.State.InRuntime && !oneTask.State.IsFailed)
      = false)
    (hkind : st.Kind = OneRuntime) (hact : st.Action ≠ "")
    (hn : n = if !failover && !st.IsCreate && !st.IsFailed then st.RuntimeNode
      else SliceRandOne (runtimeNode.map Prod.fst) rnd)
    (hupd : (M.UpdateState kv0.Value n Running st.Action).2 = none)
    (hne : M.ToLocalTask n (M.TaskName oneTask.Key) ≠ oneTask.Key) :
    assign M runtimeNode rnd w oneTask failover =
      (.ret none,
        { w with
          store := w.store.commit
            [(oneTask.Key, (M.UpdateState kv0.Value n Running st.Action).1),
              (M.ToLocalTask n (M.TaskName oneTask.Key), CanRun)]
          trace := .txn [{ Key := oneTask.Key, ModRevision := kv0.ModRevision }]
            [(oneTask.Key, (M.UpdateState kv0.Value n Running st.Action).1),
              (M.ToLocalTask n (M.TaskName oneTask.Key), CanRun)]
            :: .get (M.FullGlobalTask (M.TaskName oneTask.Key)) oneTask.Version
            :: .get oneTask.Key 0 :: w.trace }) := by
  have hu : M.UpdateState kv0.Value n Running st.Action =
      ((M.UpdateState kv0.Value n Running st.Action).1, none) := by rw [← hupd]
  have hone : st.IsOneRuntime = true := by simp [State.IsOneRuntime, hkind]
  have h := assign_reach M runtimeNode rnd w oneTask failover kv0 d st e kvs hf hkey hdec
    hgate hreg hname hrev hdata hs
  simp only [hone, if_true] at h
  rw [← hn] at h
  rw [h, UpdateLocalAndGlobal_commit M
    { w with trace := Request.get (M.FullGlobalTask (M.TaskName oneTask.Key)) oneTask.Version ::
      Request.get oneTask.Key 0 :: w.trace } _ _ _ _ kv0 [] _ hf rfl hact hu
    (by rw [hwell]; exact hne) (by rw [hwell]; exact modRevision_of_find? _ _ _ hkey), hwell]

/-- What `assign` leaves in the store after its binding transaction on node `n`. -/
theorem bound_store (s : Store) (key newValue lkey : String) (hne : lkey ≠ key) :
    (s.commit [(key, newValue), (lkey, CanRun)]).value? key = some newValue ∧
    (s.commit [(key, newValue), (lkey, CanRun)]).value? lkey = some CanRun ∧
    ∀ k, k ≠ key → k ≠ lkey → (s.commit [(key, newValue), (lkey, CanRun)]).find? k = s.find? k := by
  obtain ⟨⟨a, ha1, ha2, -⟩, ⟨b, hb1, hb2, -⟩, hc⟩ :=
    find?_commit_two s key newValue lkey CanRun (Ne.symm hne)
  exact ⟨by simp [Store.value?, ha1, ha2], by simp [Store.value?, hb1, hb2], hc⟩

/-- C2: for a task whose stored state record has Kind = OneRuntime, State = Create and a
non-empty Action, whose incoming snapshot is not a remove request out of runtime (not all of
State = Remove, InRuntime = false, not Failed), whose data record exists at the pinned
revision, with a non-empty registry, nobody else writing and no request failing in
transport, the key being the state key of its task name, the record update succeeding and
the local key differing from the state key: `assign` without failover returns `nil`;
afterwards the state key holds the old record updated to Running and to the node `n` drawn
from the registry with the Action kept, the local key of `n` holds CanRun, and every other
key is as before. With one registered node, `n` is that node. -/
theorem assign_oneRuntime_create_binds (M : Model) (runtimeNode : Registry) (rnd : Nat)
    (w : World) (oneTask : KeyVal) (kv0 d : KeyValue) (st : State) (kvs : List KeyValue)
    (hf : w.faults = [])
    (hkey : w.store.find? oneTask.Key = some kv0)
    (hdec : M.ValueToState kv0.Value = (st, none))
    (hkind : st.Kind = OneRuntime) (hstate : st.State = Create) (hact : st.Action ≠ "")
    (hreg : runtimeNode ≠ [])
    (hname : M.TaskName oneTask.Key ≠ "")
    (hwell : M.FullGlobalTaskState (M.TaskName oneTask.Key) = oneTask.Key)
    (hrev : w.store.asOf oneTask.Version = .ok kvs)
    (hdata : lookup kvs (M.FullGlobalTask (M.TaskName oneTask.Key)) = some d)
    (hsnap : (oneTask.State.IsRemove && !oneTask.State.InRuntime && !oneTask.State.IsFailed)
      = false)
    (hupd : (M.UpdateState kv0.Value (SliceRandOne (runtimeNode.map Prod.fst) rnd) Running
      st.Action).2 = none)
    (hne : M.ToLocalTask (SliceRandOne (runtimeNode.map Prod.fst) rnd) (M.TaskName oneTask.Key)
      ≠ oneTask.Key) :
    (assign M runtimeNode rnd w oneTask false).1 = .ret none ∧
    SliceRandOne (runtimeNode.map Prod.fst) rnd ∈ runtimeNode.map Prod.fst ∧
    (assign M runtimeNode rnd w oneTask false).2.store.value? oneTask.Key =
      some (M.UpdateState kv0.Value (SliceRandOne (runtimeNode.map Prod.fst) rnd) Running
        st.Action).1 ∧
    (assign M runtimeNode rnd w oneTask false).2.store.value?
      (M.ToLocalTask (SliceRandOne (runtimeNode.map Prod.fst) rnd) (M.TaskName oneTask.Key)) =
      some CanRun ∧
    (∀ k, k ≠ oneTask.Key →
      k ≠ M.ToLocalTask (SliceRandOne (runtimeNode.map Prod.fst) rnd) (M.TaskName oneTask.Key) →
      (assign M runtimeNode rnd w oneTask false).2.store.find? k = w.store.find? k) ∧
    (∀ a x, runtimeNode = [(a, x)] → SliceRandOne (runtimeNode.map Prod.fst) rnd = a) := by
  have hrun : st.State ≠ Running := by rw [hstate]; decide
  have hn : SliceRandOne (runtimeNode.map Prod.fst) rnd =
      if !false && !st.IsCreate && !st.IsFailed then st.RuntimeNode
      else SliceRandOne (runtimeNode.map Prod.fst) rnd := by
    simp [State.IsCreate, hstate]
  rw [assign_oneRuntime M runtimeNode rnd w oneTask false kv0 d st none kvs _ hf hkey hdec
    (Or.inr ⟨rfl, hrun⟩) hreg hname hwell hrev hdata hsnap hkind hact hn hupd hne]
  obtain ⟨h1, h2, h3⟩ := bound_store w.store oneTask.Key
    (M.UpdateState kv0.Value (SliceRandOne (runtimeNode.map Prod.fst) rnd) Running st.Action).1
    (M.ToLocalTask (SliceRandOne (runtimeNode.map Prod.fst) rnd) (M.TaskName oneTask.Key)) hne
  refine ⟨rfl, SliceRandOne_mem _ _ (by simpa using hreg), h1, h2, h3, ?_⟩
  intro a x hax
  subst hax
  simp [SliceRandOne, Nat.mod_one]

/-! ## The requests a call sends -/

theorem send_trace (w : World) (r : Request) : (w.send r).2.trace = r :: w.trace := by
  unfold World.send
  split <;> rfl

theorem send_store (w : World) (r : Request) : (w.send r).2.store = w.store := by
  unfold World.send
  split <;> rfl

theorem Get_trace (w : World) (key : String) (rev : Int) :
    (Get w key rev).2.trace = .get key rev :: w.trace := by
  have h := send_trace w (.get key rev)
  unfold Get
  rcases hs : w.send (.get key rev) with ⟨b, w1⟩
  rw [hs] at h
  cases b
  · simp only
    split <;> exact h
  · exact h

theorem Txn_trace (w : World) (cmps : List Cmp) (puts : List (String × String)) :
    (Txn w cmps puts).2.trace = .txn cmps puts :: w.trace := by
  have h := send_trace w (.txn cmps puts)
  unfold Txn
  rcases hs : w.send (.txn cmps puts) with ⟨b, w1⟩
  rw [hs] at h
  cases b
  · simp only
    split
    · exact h
    · split <;> exact h
  · exact h

theorem Delete_trace (w : World) (key : String) :
    (Delete w key).2.trace = .delete key :: w.trace := by
  have h := send_trace w (.delete key)
  unfold Delete
  rcases hs : w.send (.delete key) with ⟨b, w1⟩
  rw [hs] at h
  cases b <;> exact h

/-- Every transaction that `UpdateLocalAndGlobal` sends puts the state record updated for
its node and the local marker of its node. -/
theorem UpdateLocalAndGlobal_txn (M : Model) (w : World) (taskName node : String)
    (rsp : GetResponse) (action : String) (kv0 : KeyValue) (rest : List KeyValue)
    (hrsp : rsp.Kvs = kv0 :: rest) (cmps : List Cmp) (puts : List (String × String))
    (h : Request.txn cmps puts ∈ (UpdateLocalAndGlobal M w taskName node rsp action).2.trace) :
    Request.txn cmps puts ∈ w.trace ∨
    puts = [(M.FullGlobalTaskState taskName, (M.UpdateState kv0.Value node Running action).1),
      (M.ToLocalTask node taskName, CanRun)] := by
  unfold UpdateLocalAndGlobal at h
  simp only [hrsp] at h
  split at h
  · exact Or.inl h
  · rcases hU : M.UpdateState kv0.Value node Running action with ⟨nv, _ | e⟩
    · rw [hU] at h
      simp only at h
      have ht := Txn_trace w [{ Key := M.FullGlobalTaskState taskName, ModRevision := kv0.ModRevision }]
        [(M.FullGlobalTaskState taskName, nv), (M.ToLocalTask node taskName, CanRun)]
      rcases hT : Txn w [{ Key := M.FullGlobalTaskState taskName, ModRevision := kv0.ModRevision }]
        [(M.FullGlobalTaskState taskName, nv), (M.ToLocalTask node taskName, CanRun)] with ⟨res, w1⟩
      rw [hT] at h ht
      simp only at ht
      have key : ∀ w2 : World, (w2.trace = w1.trace ∨
          w2.trace = .get (M.FullGlobalTaskState taskName) 0 :: w1.trace) →
          Request.txn cmps puts ∈ w2.trace → Request.txn cmps puts ∈ w.trace ∨
          puts = [(M.FullGlobalTaskState taskName, nv), (M.ToLocalTask node taskName, CanRun)] := by
        intro w2 hw2 hm
        rcases hw2 with e | e
        · rw [e, ht] at hm
          simp only [List.mem_cons, Request.txn.injEq] at hm
          rcases hm with hm | hm
          · exact Or.inr hm.2
          · exact Or.inl hm
        · rw [e, ht] at hm
          simp only [List.mem_cons, Request.txn.injEq, reduceCtorEq, false_or] at hm
          rcases hm with hm | hm
          · exact Or.inr hm.2
          · exact Or.inl hm
      cases res with
      | error e => exact key w1 (Or.inl rfl) h
      | ok b =>
        cases b
        · simp only [Bool.not_false, if_true] at h
          have hg := Get_trace w1 (M.FullGlobalTaskState taskName) 0
          rcases hG : Get w1 (M.FullGlobalTaskState taskName) 0 with ⟨r, w2⟩
          rw [hG] at h hg
          cases r <;> exact key w2 (Or.inr hg) h
        · exact key w1 (Or.inl rfl) h
    · rw [hU] at h
      exact Or.inl h

/-- Every transaction that the broadcast loop sends is the one of its node. -/
theorem assignRange_txn (M : Model) (taskName node : String) (rsp : GetResponse)
    (action : String) (kv0 : KeyValue) (rest : List KeyValue) (hrsp : rsp.Kvs = kv0 :: rest)
    (cmps : List Cmp) (puts : List (String × String)) (reg : Registry) :
    ∀ (err : GoError) (w : World),
    Request.txn cmps puts ∈ (assignRange M taskName node rsp action reg err w).2.trace →
    Request.txn cmps puts ∈ w.trace ∨
    puts = [(M.FullGlobalTaskState taskName, (M.UpdateState kv0.Value node Running action).1),
      (M.ToLocalTask node taskName, CanRun)] := by
  induction reg with
  | nil => intro err w h; exact Or.inl h
  | cons a l ih =>
    intro err w h
    unfold assignRange at h
    have hu := UpdateLocalAndGlobal_txn M w taskName node rsp action kv0 rest hrsp cmps puts
    rcases hR : UpdateLocalAndGlobal M w taskName node rsp action with ⟨o, w1⟩
    rw [hR] at h hu
    cases o with
    | panic msg => exact hu h
    | ret e1 =>
      simp only at h
      split at h
      · rcases ih e1 w1 h with h1 | h1
        · exact hu h1
        · exact Or.inr h1
      · exact hu h

theorem Get_current_kvs (w w1 : World) (key : String) (rsp : GetResponse)
    (h : Get w key 0 = (.ok rsp, w1)) : rsp.Kvs = (w.store.find? key).toList := by
  unfold Get at h
  rcases hs : w.send (.get key 0) with ⟨b, w2⟩
  have hst := send_store w (.get key 0)
  rw [hs] at h hst
  cases b
  · simp only [Store.asOf, le_refl, if_true] at h
    simp only [Prod.mk.injEq, Except.ok.injEq] at h
    rw [← h.1]
    simp only at hst
    simp [Store.find?, hst]
  · simp at h

theorem txn_mem_get_cons (cmps : List Cmp) (puts : List (String × String)) (k : String)
    (rev : Int) (tr : List Request) (h : Request.txn cmps puts ∈ Request.get k rev :: tr) :
    Request.txn cmps puts ∈ tr := by
  simpa using h

theorem txn_mem_delete_cons (cmps : List Cmp) (puts : List (String × String)) (k : String)
    (tr : List Request) (h : Request.txn cmps puts ∈ Request.delete k :: tr) :
    Request.txn cmps puts ∈ tr := by
  simpa using h

/-- Every transaction that `assign` sends puts the state record updated for the node it
selected and the local marker of that node. -/
theorem assign_txn (M : Model) (runtimeNode : Registry) (rnd : Nat) (w : World)
    (oneTask : KeyVal) (failover : Bool) (kv0 : KeyValue)
    (hkey : w.store.find? oneTask.Key = some kv0)
    (cmps : List Cmp) (puts : List (String × String))
    (h : Request.txn cmps puts ∈ (assign M runtimeNode rnd w oneTask failover).2.trace) :
    Request.txn cmps puts ∈ w.trace ∨
    puts = [(M.FullGlobalTaskState (M.TaskName oneTask.Key),
        (M.UpdateState kv0.Value
          (if !failover && !(M.ValueToState kv0.Value).1.IsCreate
              && !(M.ValueToState kv0.Value).1.IsFailed
            then (M.ValueToState kv0.Value).1.RuntimeNode
            else SliceRandOne (runtimeNode.map Prod.fst) rnd)
          Running (M.ValueToState kv0.Value).1.Action).1),
      (M.ToLocalTask
        (if !failover && !(M.ValueToState kv0.Value).1.IsCreate
            && !(M.ValueToState kv0.Value).1.IsFailed
          then (M.ValueToState kv0.Value).1.RuntimeNode
          else SliceRandOne (runtimeNode.map Prod.fst) rnd)
        (M.TaskName oneTask.Key), CanRun)] := by
  unfold assign at h
  have hg := Get_trace w oneTask.Key 0
  rcases hG : Get w oneTask.Key 0 with ⟨r, w1⟩
  rw [hG] at h hg
  simp only at hg
  have back1 : Request.txn cmps puts ∈ w1.trace → Request.txn cmps puts ∈ w.trace := by
    intro hm
    rw [hg] at hm
    exact txn_mem_get_cons _ _ _ _ _ hm
  cases r with
  | error e => exact Or.inl (back1 h)
  | ok rspState =>
    have hk := Get_current_kvs w w1 oneTask.Key rspState hG
    rw [hkey] at hk
    simp only [Option.toList] at hk
    simp only [hk] at h
    split at h
    · exact Or.inl (back1 h)
    · split at h
      · exact Or.inl (back1 h)
      · split at h
        · exact Or.inl (back1 h)
        · rename_i node hsel
          split at h
          · exact Or.inl (back1 h)
          · have hg2 := Get_trace w1 (M.FullGlobalTask (M.TaskName oneTask.Key)) oneTask.Version
            rcases hG2 : Get w1 (M.FullGlobalTask (M.TaskName oneTask.Key)) oneTask.Version
              with ⟨r2, w2⟩
            rw [hG2] at h hg2
            simp only at hg2
            have back2 : Request.txn cmps puts ∈ w2.trace → Request.txn cmps puts ∈ w.trace := by
              intro hm
              rw [hg2] at hm
              exact back1 (txn_mem_get_cons _ _ _ _ _ hm)
            have hnode : node = SliceRandOne (runtimeNode.map Prod.fst) rnd := by
              unfold selectRuntimeNode at hsel
              split at hsel
              · simp at hsel
              · simp only [Prod.mk.injEq] at hsel
                exact hsel.1.symm
            subst hnode
            cases r2 with
            | error e => exact Or.inl (back2 h)
            | ok rsp =>
              simp only at h
              split at h
              · exact Or.inl (back2 h)
              · split at h
                · simp only [Delete_trace] at h
                  exact Or.inl (back2 (txn_mem_delete_cons _ _ _ _
                    (txn_mem_delete_cons _ _ _ _ h)))
                · split at h
                  · rcases UpdateLocalAndGlobal_txn M w2 _ _ _ _ kv0 [] hk cmps puts h
                      with h1 | h1
                    · exact Or.inl (back2 h1)
                    · exact Or.inr h1
                  · split at h
                    · rcases assignRange_txn M _ _ _ _ kv0 [] hk cmps puts runtimeNode _ _ h
                        with h1 | h1
                      · exact Or.inl (back2 h1)
                      · exact Or.inr h1
                    · exact Or.inl (back2 h)

/-- Once the state key has moved past the revision that was read, the broadcast loop writes
nothing more and ends with `nil`. -/
theorem assignRange_stale (M : Model) (taskName node : String) (rsp : GetResponse)
    (action : String) (kv0 : KeyValue) (rest : List KeyValue) (hrsp : rsp.Kvs = kv0 :: rest)
    (hact : action ≠ "") (hupd : (M.UpdateState kv0.Value node Running action).2 = none)
    (hne : M.ToLocalTask node taskName ≠ M.FullGlobalTaskState taskName) (reg : Registry) :
    ∀ w : World, w.faults = [] →
    w.store.modRevision (M.FullGlobalTaskState taskName) ≠ kv0.ModRevision →
    (assignRange M taskName node rsp action reg none w).1 = .ret none ∧
    (assignRange M taskName node rsp action reg none w).2.store = w.store := by
  have hu : M.UpdateState kv0.Value node Running action =
      ((M.UpdateState kv0.Value node Running action).1, none) := by rw [← hupd]
  induction reg with
  | nil => intro w _ _; exact ⟨rfl, rfl⟩
  | cons a l ih =>
    intro w hf hrev
    unfold assignRange
    rw [UpdateLocalAndGlobal_stale M w taskName node rsp action kv0 rest _ hf hrsp hact hu hne hrev]
    simp only [beq_self_eq_true, if_true]
    exact ih _ hf hrev

/-- The broadcast loop over a non-empty registry commits its transaction once. -/
theorem assignRange_commit (M : Model) (taskName node : String) (rsp : GetResponse)
    (action : String) (kv0 : KeyValue) (rest : List KeyValue) (hrsp : rsp.Kvs = kv0 :: rest)
    (hact : action ≠ "") (hupd : (M.UpdateState kv0.Value node Running action).2 = none)
    (hne : M.ToLocalTask node taskName ≠ M.FullGlobalTaskState taskName) (reg : Registry)
    (hreg : reg ≠ []) (w : World) (hf : w.faults = [])
    (hrev : w.store.modRevision (M.FullGlobalTaskState taskName) = kv0.ModRevision)
    (hwf : kv0.ModRevision ≤ w.store.revision) :
    (assignRange M taskName node rsp action reg none w).1 = .ret none ∧
    (assignRange M taskName node rsp action reg none w).2.store =
      w.store.commit [(M.FullGlobalTaskState taskName,
        (M.UpdateState kv0.Value node Running action).1), (M.ToLocalTask node taskName, CanRun)] := by
  have hu : M.UpdateState kv0.Value node Running action =
      ((M.UpdateState kv0.Value node Running action).1, none) := by rw [← hupd]
  cases reg with
  | nil => exact absurd rfl hreg
  | cons a l =>
    unfold assignRange
    rw [UpdateLocalAndGlobal_commit M w taskName node rsp action kv0 rest _ hf hrsp hact hu hne hrev]
    simp only [beq_self_eq_true, if_true]
    obtain ⟨⟨kv, h1, -, h3⟩, -, -⟩ := find?_commit_two w.store (M.FullGlobalTaskState taskName)
      (M.UpdateState kv0.Value node Running action).1 (M.ToLocalTask node taskName) CanRun
      (Ne.symm hne)
    have hstale : (w.store.commit [(M.FullGlobalTaskState taskName,
        (M.UpdateState kv0.Value node Running action).1),
        (M.ToLocalTask node taskName, CanRun)]).modRevision (M.FullGlobalTaskState taskName)
        ≠ kv0.ModRevision := by
      rw [modRevision_of_find? _ _ _ h1, h3]
      omega
    exact assignRange_stale M taskName node rsp action kv0 rest hrsp hact hupd hne l _ hf hstale

/-- C4: for a task whose stored state record is neither Create nor Failed and is bound to
the node `st.RuntimeNode`, whatever the registry holds, every transaction that `assign`
without failover sends puts the state record bound to that node and the local marker of that
node, never those of another node; and when the record is not Running and the call reaches
the binding step (no transport failure, a registry that is not empty, a derivable task name,
the data record present, a non-empty Action), the call returns `nil` and the store holds the
state record bound to that node and its local marker. -/
theorem assign_sticky (M : Model) (runtimeNode : Registry) (rnd : Nat) (w : World)
    (oneTask : KeyVal) (kv0 : KeyValue) (st : State)
    (hkey : w.store.find? oneTask.Key = some kv0)
    (hdec : M.ValueToState kv0.Value = (st, none))
    (hcreate : st.State ≠ Create) (hfailed : st.State ≠ Failed) :
    (∀ cmps puts,
      Request.txn cmps puts ∈ (assign M runtimeNode rnd w oneTask false).2.trace →
      Request.txn cmps puts ∈ w.trace ∨
      puts = [(M.FullGlobalTaskState (M.TaskName oneTask.Key),
          (M.UpdateState kv0.Value st.RuntimeNode Running st.Action).1),
        (M.ToLocalTask st.RuntimeNode (M.TaskName oneTask.Key), CanRun)]) ∧
    (w.faults = [] → st.State ≠ Running → st.Kind = OneRuntime ∨ st.Kind = Broadcast →
      st.Action ≠ "" → runtimeNode ≠ [] → M.TaskName oneTask.Key ≠ "" →
      M.FullGlobalTaskState (M.TaskName oneTask.Key) = oneTask.Key →
      (∃ kvs d, w.store.asOf oneTask.Version = .ok kvs ∧
        lookup kvs (M.FullGlobalTask (M.TaskName oneTask.Key)) = some d) →
      oneTask.State.State ≠ Remove →
      (M.UpdateState kv0.Value st.RuntimeNode Running st.Action).2 = none →
      M.ToLocalTask st.RuntimeNode (M.TaskName oneTask.Key) ≠ oneTask.Key →
      kv0.ModRevision ≤ w.store.revision →
      (assign M runtimeNode rnd w oneTask false).1 = .ret none ∧
      (assign M runtimeNode rnd w oneTask false).2.store.value? oneTask.Key =
        some (M.UpdateState kv0.Value st.RuntimeNode Running st.Action).1 ∧
      (assign M runtimeNode rnd w oneTask false).2.store.value?
        (M.ToLocalTask st.RuntimeNode (M.TaskName oneTask.Key)) = some CanRun) := by
  have hn : st.RuntimeNode =
      if !false && !st.IsCreate && !st.IsFailed then st.RuntimeNode
      else SliceRandOne (runtimeNode.map Prod.fst) rnd := by
    simp [State.IsCreate, State.IsFailed, hcreate, hfailed]
  constructor
  · intro cmps puts h
    have h1 := assign_txn M runtimeNode rnd w oneTask false kv0 hkey cmps puts h
    rw [hdec] at h1
    simp only at h1
    rw [← hn] at h1
    exact h1
  · intro hf hrun hkind hact hreg hname hwell hdata hsnap hupd hne hwf
    obtain ⟨kvs, d, hrev, hdata⟩ := hdata
    have hs : (oneTask.State.IsRemove && !oneTask.State.InRuntime && !oneTask.State.IsFailed)
        = false := by simp [State.IsRemove, hsnap]
    obtain ⟨b1, b2, -⟩ := bound_store w.store oneTask.Key
      (M.UpdateState kv0.Value st.RuntimeNode Running st.Action).1
      (M.ToLocalTask st.RuntimeNode (M.TaskName oneTask.Key)) hne
    rcases hkind with hkind | hkind
    · rw [assign_oneRuntime M runtimeNode rnd w oneTask false kv0 d st none kvs _ hf hkey hdec
        (Or.inr ⟨rfl, hrun⟩) hreg hname hwell hrev hdata hs hkind hact hn hupd hne]
      exact ⟨rfl, b1, b2⟩
    · have hone : st.IsOneRuntime = false := by
        simp only [State.IsOneRuntime, hkind]; decide
      have hbro : st.IsBroadcast = true := by simp [State.IsBroadcast, hkind]
      have h := assign_reach M runtimeNode rnd w oneTask false kv0 d st none kvs hf hkey hdec
        (Or.inr ⟨rfl, hrun⟩) hreg hname hrev hdata hs
      simp only [hone, hbro, if_true, Bool.false_eq_true, if_false] at h
      rw [← hn] at h
      obtain ⟨r1, r2⟩ := assignRange_commit M (M.TaskName oneTask.Key) st.RuntimeNode
        { Kvs := [kv0] } st.Action kv0 [] rfl hact hupd (by rw [hwell]; exact hne) runtimeNode hreg
        { w with trace := Request.get (M.FullGlobalTask (M.TaskName oneTask.Key)) oneTask.Version
            :: Request.get oneTask.Key 0 :: w.trace } hf
        (by rw [hwell]; exact modRevision_of_find? _ _ _ hkey) hwf
      rw [hwell] at r2
      rw [h, r1, r2]
      exact ⟨rfl, b1, b2⟩

/-! ## The claims on `assign` -/

theorem send_fst_of_head (w : World) (r : Request) (h : w.faults.head? ≠ some true) :
    w.send r = (false, { w with faults := w.faults.tail, trace := r :: w.trace }) := by
  unfold World.send
  rcases hf : w.faults with _ | ⟨f, fs⟩
  · simp
  · cases f
    · simp
    · simp [hf] at h

/-- C1: when the state key holds a record that decodes to State = Running and the read of it
does not fail, `assign` without failover returns `nil`, leaves the store as it was and sends
nothing but that one read, whatever the registry and the snapshot are. -/
theorem assign_running_noop (M : Model) (runtimeNode : Registry) (rnd : Nat) (w : World)
    (oneTask : KeyVal) (kv0 : KeyValue) (st : State)
    (hfault : w.faults.head? ≠ some true)
    (hkey : w.store.find? oneTask.Key = some kv0)
    (hdec : M.ValueToState kv0.Value = (st, none))
    (hrun : st.State = Running) :
    (assign M runtimeNode rnd w oneTask false).1 = .ret none ∧
    (assign M runtimeNode rnd w oneTask false).2.store = w.store ∧
    (assign M runtimeNode rnd w oneTask false).2.trace = .get oneTask.Key 0 :: w.trace := by
  have hk : lookup w.store.kvs oneTask.Key = some kv0 := hkey
  simp [assign, Get, send_fst_of_head w _ hfault, Store.asOf, hk, hdec, State.IsRunning, hrun]

/-- C5: with failover, whatever State and RuntimeNode the stored record has (Running and
already bound included), every transaction that `assign` sends binds the node drawn from the
registry keys, which is a member of a non-empty registry, never the node of the record; and
for a OneRuntime task, when the call reaches the binding step (no transport failure, a
non-empty Action and registry, a derivable task name, the data record present), it does not
stop at the Running guard: it returns `nil` after the data read and one transaction, and
the store holds the state record bound to the drawn node and the local marker of that
node. -/
theorem assign_failover_rebinds (M : Model) (runtimeNode : Registry) (rnd : Nat)
    (w : World) (oneTask : KeyVal) (kv0 : KeyValue)
    (hkey : w.store.find? oneTask.Key = some kv0) :
    (∀ cmps puts,
      Request.txn cmps puts ∈ (assign M runtimeNode rnd w oneTask true).2.trace →
      Request.txn cmps puts ∈ w.trace ∨
      puts = [(M.FullGlobalTaskState (M.TaskName oneTask.Key),
          (M.UpdateState kv0.Value (SliceRandOne (runtimeNode.map Prod.fst) rnd) Running
            (M.ValueToState kv0.Value).1.Action).1),
        (M.ToLocalTask (SliceRandOne (runtimeNode.map Prod.fst) rnd) (M.TaskName oneTask.Key),
          CanRun)]) ∧
    (runtimeNode ≠ [] → SliceRandOne (runtimeNode.map Prod.fst) rnd ∈ runtimeNode.map Prod.fst) ∧
    (w.faults = [] → (M.ValueToState kv0.Value).1.Kind = OneRuntime →
      (M.ValueToState kv0.Value).1.Action ≠ "" → runtimeNode ≠ [] →
      M.TaskName oneTask.Key ≠ "" →
      M.FullGlobalTaskState (M.TaskName oneTask.Key) = oneTask.Key →
      (∃ kvs d, w.store.asOf oneTask.Version = .ok kvs ∧
        lookup kvs (M.FullGlobalTask (M.TaskName oneTask.Key)) = some d) →
      oneTask.State.State ≠ Remove →
      (M.UpdateState kv0.Value (SliceRandOne (runtimeNode.map Prod.fst) rnd) Running
        (M.ValueToState kv0.Value).1.Action).2 = none →
      M.ToLocalTask (SliceRandOne (runtimeNode.map Prod.fst) rnd) (M.TaskName oneTask.Key)
        ≠ oneTask.Key →
      (assign M runtimeNode rnd w oneTask true).1 = .ret none ∧
      (assign M runtimeNode rnd w oneTask true).2.trace =
        .txn [{ Key := oneTask.Key, ModRevision := kv0.ModRevision }]
          [(oneTask.Key, (M.UpdateState kv0.Value (SliceRandOne (runtimeNode.map Prod.fst) rnd)
              Running (M.ValueToState kv0.Value).1.Action).1),
            (M.ToLocalTask (SliceRandOne (runtimeNode.map Prod.fst) rnd)
              (M.TaskName oneTask.Key), CanRun)]
          :: .get (M.FullGlobalTask (M.TaskName oneTask.Key)) oneTask.Version
          :: .get oneTask.Key 0 :: w.trace ∧
      (assign M runtimeNode rnd w oneTask true).2.store.value? oneTask.Key =
        some (M.UpdateState kv0.Value (SliceRandOne (runtimeNode.map Prod.fst) rnd) Running
          (M.ValueToState kv0.Value).1.Action).1 ∧
      (assign M runtimeNode rnd w oneTask true).2.store.value?
        (M.ToLocalTask (SliceRandOne (runtimeNode.map Prod.fst) rnd) (M.TaskName oneTask.Key)) =
        some CanRun) := by
  refine ⟨?_, ?_, ?_⟩
  · intro cmps puts h
    have h1 := assign_txn M runtimeNode rnd w oneTask true kv0 hkey cmps puts h
    simpa using h1
  · intro hreg
    exact SliceRandOne_mem _ _ (by simpa using hreg)
  · intro hf hkind hact hreg hname hwell hdata hsnap hupd hne
    obtain ⟨kvs, d, hrev, hdata⟩ := hdata
    have hs : (oneTask.State.IsRemove && !oneTask.State.InRuntime && !oneTask.State.IsFailed)
        = false := by simp [State.IsRemove, hsnap]
    have hn : SliceRandOne (runtimeNode.map Prod.fst) rnd =
        if !true && !(M.ValueToState kv0.Value).1.IsCreate && !(M.ValueToState kv0.Value).1.IsFailed
        then (M.ValueToState kv0.Value).1.RuntimeNode
        else SliceRandOne (runtimeNode.map Prod.fst) rnd := by
      simp
    rw [assign_oneRuntime M runtimeNode rnd w oneTask true kv0 d (M.ValueToState kv0.Value).1
      (M.ValueToState kv0.Value).2 kvs _ hf hkey rfl
      (Or.inl rfl) hreg hname hwell hrev hdata hs hkind hact hn hupd hne]
    obtain ⟨h1, h2, -⟩ := bound_store w.store oneTask.Key
      (M.UpdateState kv0.Value (SliceRandOne (runtimeNode.map Prod.fst) rnd) Running
        (M.ValueToState kv0.Value).1.Action).1
      (M.ToLocalTask (SliceRandOne (runtimeNode.map Prod.fst) rnd) (M.TaskName oneTask.Key)) hne
    exact ⟨rfl, rfl, h1, h2⟩

/-! ## The claims on `UpdateDataAndState` -/

/-- One call of `UpdateDataAndState`, with the state key present and no transport failure,
written out on the store that the other clients left. -/
theorem UpdateDataAndState_eq (M : Model) (others : Store → Store) (w : World)
    (taskName globalData : String) (rspModRevision : Int) (state action : String)
    (kv0 : KeyValue) (newValue : String)
    (hf : w.faults = [])
    (hkey : w.store.find? (M.FullGlobalTaskState taskName) = some kv0)
    (hupd : M.UpdateState kv0.Value "" state action = (newValue, none))
    (hne : M.FullGlobalTask taskName ≠ M.FullGlobalTaskState taskName) :
    UpdateDataAndState M others w taskName globalData rspModRevision state action =
      if ((others w.store).modRevision (M.FullGlobalTask taskName) : Int) = rspModRevision ∧
          (others w.store).modRevision (M.FullGlobalTaskState taskName) = kv0.ModRevision then
        (.ret none,
          { store := (others w.store).commit [(M.FullGlobalTask taskName, globalData),
              (M.FullGlobalTaskState taskName, newValue)]
            faults := []
            trace := .txn [{ Key := M.FullGlobalTask taskName, ModRevision := rspModRevision },
                { Key := M.FullGlobalTaskState taskName, ModRevision := kv0.ModRevision }]
              [(M.FullGlobalTask taskName, globalData), (M.FullGlobalTaskState taskName, newValue)]
              :: .get (M.FullGlobalTaskState taskName) 0 :: w.trace })
      else
        (.ret (some "Transaction execution failed"),
          { store := others w.store
            faults := []
            trace := .txn [{ Key := M.FullGlobalTask taskName, ModRevision := rspModRevision },
                { Key := M.FullGlobalTaskState taskName, ModRevision := kv0.ModRevision }]
              [(M.FullGlobalTask taskName, globalData), (M.FullGlobalTaskState taskName, newValue)]
              :: .get (M.FullGlobalTaskState taskName) 0 :: w.trace }) := by
  have hnd : (([(M.FullGlobalTask taskName, globalData),
      (M.FullGlobalTaskState taskName, newValue)] : List (String × String)).map Prod.fst).Nodup := by
    simp [hne]
  unfold UpdateDataAndState
  simp only [maxRetry]
  unfold UpdateDataAndState.loop
  simp only [Get_current w _ hf, hkey, Option.toList, hupd, Txn, World.send, hf, hnd]
  by_cases h1 : ((others w.store).modRevision (M.FullGlobalTask taskName) : Int) = rspModRevision
  · by_cases h2 : (others w.store).modRevision (M.FullGlobalTaskState taskName) = kv0.ModRevision
    · simp [Cmp.holds, h1, h2, hf]
    · simp [Cmp.holds, h1, h2, hf, maxRetry]
  · simp [Cmp.holds, h1, hf, maxRetry]

/-- A call of `UpdateDataAndState` that finds the data key or the state key at another
revision when it commits returns an error and leaves the store as the other clients left
it. -/
theorem UpdateDataAndState_stale (M : Model) (others : Store → Store) (w : World)
    (taskName globalData : String) (rspModRevision : Int) (state action : String)
    (kv0 : KeyValue)
    (hf : w.faults = [])
    (hkey : w.store.find? (M.FullGlobalTaskState taskName) = some kv0)
    (hstale : ((others w.store).modRevision (M.FullGlobalTask taskName) : Int) ≠ rspModRevision ∨
      (others w.store).modRevision (M.FullGlobalTaskState taskName) ≠ kv0.ModRevision) :
    (∃ e, (UpdateDataAndState M others w taskName globalData rspModRevision state action).1
      = .ret (some e)) ∧
    (UpdateDataAndState M others w taskName globalData rspModRevision state action).2.store
      = others w.store := by
  unfold UpdateDataAndState
  simp only [maxRetry]
  unfold UpdateDataAndState.loop
  simp only [Get_current w _ hf, hkey, Option.toList]
  rcases hU : M.UpdateState kv0.Value "" state action with ⟨nv, _ | e⟩
  · by_cases hk : M.FullGlobalTask taskName = M.FullGlobalTaskState taskName
    · simp [Txn, World.send, hf, hk]
    · rcases hstale with h | h
      · simp [Txn, World.send, hf, hk, Cmp.holds, h, maxRetry]
      · simp [Txn, World.send, hf, hk, Cmp.holds, h, maxRetry]
  · exact ⟨⟨_, rfl⟩, rfl⟩

/-- A call of `UpdateDataAndState` returns `nil` only when the update of the record
succeeded and the two keys differ. -/
theorem UpdateDataAndState_nil (M : Model) (others : Store → Store) (w : World)
    (taskName globalData : String) (rspModRevision : Int) (state action : String)
    (kv0 : KeyValue)
    (hf : w.faults = [])
    (hkey : w.store.find? (M.FullGlobalTaskState taskName) = some kv0)
    (h : (UpdateDataAndState M others w taskName globalData rspModRevision state action).1
      = .ret none) :
    (M.UpdateState kv0.Value "" state action).2 = none ∧
    M.FullGlobalTask taskName ≠ M.FullGlobalTaskState taskName := by
  unfold UpdateDataAndState at h
  simp only [maxRetry] at h
  unfold UpdateDataAndState.loop at h
  simp only [Get_current w _ hf, hkey, Option.toList] at h
  rcases hU : M.UpdateState kv0.Value "" state action with ⟨nv, _ | e⟩
  · refine ⟨rfl, ?_⟩
    intro hk
    rw [hU] at h
    simp [Txn, World.send, hf, hk] at h
  · rw [hU] at h
    simp at h

/-- Atomicity of `UpdateDataAndState` with the state key present and no transport failure.
If, when the transaction commits, the data key is not at the caller's `rspModRevision` or the state
key is not at the revision that was read, the call returns an error and the store is as the
other clients left it; if both are (and the record update succeeds, on distinct keys), the
call returns `nil` and both records are replaced in one revision, every other key
untouched. And of two calls for the same task with the same `rspModRevision`, run one after
the other, the second returns an error and changes nothing once the first has committed. -/
theorem UpdateDataAndState_atomic (M : Model) (others : Store → Store) (w : World)
    (taskName globalData : String) (rspModRevision : Int) (state action : String)
    (kv0 : KeyValue)
    (hf : w.faults = [])
    (hkey : w.store.find? (M.FullGlobalTaskState taskName) = some kv0) :
    (((others w.store).modRevision (M.FullGlobalTask taskName) : Int) ≠ rspModRevision ∨
        (others w.store).modRevision (M.FullGlobalTaskState taskName) ≠ kv0.ModRevision →
      (∃ e, (UpdateDataAndState M others w taskName globalData rspModRevision state action).1
        = .ret (some e)) ∧
      (UpdateDataAndState M others w taskName globalData rspModRevision state action).2.store
        = others w.store) ∧
    (((others w.store).modRevision (M.FullGlobalTask taskName) : Int) = rspModRevision →
        (others w.store).modRevision (M.FullGlobalTaskState taskName) = kv0.ModRevision →
        (M.UpdateState kv0.Value "" state action).2 = none →
        M.FullGlobalTask taskName ≠ M.FullGlobalTaskState taskName →
      (UpdateDataAndState M others w taskName globalData rspModRevision state action).1
        = .ret none ∧
      (∃ kv, (UpdateDataAndState M others w taskName globalData rspModRevision state
          action).2.store.find? (M.FullGlobalTask taskName) = some kv ∧
        kv.Value = globalData ∧ kv.ModRevision = (others w.store).revision + 1) ∧
      (∃ kv, (UpdateDataAndState M others w taskName globalData rspModRevision state
          action).2.store.find? (M.FullGlobalTaskState taskName) = some kv ∧
        kv.Value = (M.UpdateState kv0.Value "" state action).1 ∧
        kv.ModRevision = (others w.store).revision + 1) ∧
      ∀ k, k ≠ M.FullGlobalTask taskName → k ≠ M.FullGlobalTaskState taskName →
        (UpdateDataAndState M others w taskName globalData rspModRevision state
          action).2.store.find? k = (others w.store).find? k) ∧
    (∀ globalData2 state2 action2 : String,
      (UpdateDataAndState M id w taskName globalData rspModRevision state action).1 = .ret none →
      w.store.modRevision (M.FullGlobalTask taskName) ≤ w.store.revision →
      (∃ e, (UpdateDataAndState M id
          (UpdateDataAndState M id w taskName globalData rspModRevision state action).2
          taskName globalData2 rspModRevision state2 action2).1 = .ret (some e)) ∧
      (UpdateDataAndState M id
          (UpdateDataAndState M id w taskName globalData rspModRevision state action).2
          taskName globalData2 rspModRevision state2 action2).2.store =
        (UpdateDataAndState M id w taskName globalData rspModRevision state action).2.store) := by
  refine ⟨?_, ?_, ?_⟩
  · intro hst
    exact UpdateDataAndState_stale M others w taskName globalData rspModRevision state action
      kv0 hf hkey hst
  · intro h1 h2 hupd hne
    have hu : M.UpdateState kv0.Value "" state action =
        ((M.UpdateState kv0.Value "" state action).1, none) := by rw [← hupd]
    rw [UpdateDataAndState_eq M others w taskName globalData rspModRevision state action kv0 _
      hf hkey hu hne, if_pos ⟨h1, h2⟩]
    obtain ⟨a, b, c⟩ := find?_commit_two (others w.store) (M.FullGlobalTask taskName) globalData
      (M.FullGlobalTaskState taskName) (M.UpdateState kv0.Value "" state action).1 hne
    exact ⟨rfl, a, b, c⟩
  · intro globalData2 state2 action2 hA hwf
    obtain ⟨hupd, hne⟩ := UpdateDataAndState_nil M id w taskName globalData rspModRevision state
      action kv0 hf hkey hA
    have hu : M.UpdateState kv0.Value "" state action =
        ((M.UpdateState kv0.Value "" state action).1, none) := by rw [← hupd]
    rw [UpdateDataAndState_eq M id w taskName globalData rspModRevision state action kv0 _
      hf hkey hu hne] at hA ⊢
    by_cases hc : ((w.store.modRevision (M.FullGlobalTask taskName) : Int) = rspModRevision ∧
        w.store.modRevision (M.FullGlobalTaskState taskName) = kv0.ModRevision)
    · simp only [id, if_pos hc]
      obtain ⟨⟨a, a1, -, a3⟩, ⟨b, b1, -, -⟩, -⟩ := find?_commit_two w.store
        (M.FullGlobalTask taskName) globalData
        (M.FullGlobalTaskState taskName) (M.UpdateState kv0.Value "" state action).1 hne
      have hB := UpdateDataAndState_stale M id
        { store := w.store.commit [(M.FullGlobalTask taskName, globalData),
            (M.FullGlobalTaskState taskName, (M.UpdateState kv0.Value "" state action).1)]
          faults := []
          trace := Request.txn
            [{ Key := M.FullGlobalTask taskName, ModRevision := rspModRevision },
              { Key := M.FullGlobalTaskState taskName, ModRevision := kv0.ModRevision }]
            [(M.FullGlobalTask taskName, globalData),
              (M.FullGlobalTaskState taskName, (M.UpdateState kv0.Value "" state action).1)]
            :: Request.get (M.FullGlobalTaskState taskName) 0 :: w.trace }
        taskName globalData2 rspModRevision state2 action2 b rfl b1
        (Or.inl (by
          simp only [id]
          rw [modRevision_of_find? _ _ _ a1, a3, ← hc.1]
          intro h
          have h' : w.store.revision + 1 = w.store.modRevision (M.FullGlobalTask taskName) := by
            exact_mod_cast h
          omega))
      exact hB
    · simp only [id, if_neg hc] at hA
      simp at hA
/-! ## Cleanup, the entry points and panics -/

/-- The cleanup path of `assign`: two deletes and `nil`. -/
theorem assign_remove (M : Model) (runtimeNode : Registry) (rnd : Nat) (w : World)
    (oneTask : KeyVal) (failover : Bool) (kv0 d : KeyValue) (st : State) (e : GoError)
    (kvs : List KeyValue)
    (hf : w.faults = [])
    (hkey : w.store.find? oneTask.Key = some kv0)
    (hdec : M.ValueToState kv0.Value = (st, e))
    (hgate : failover = true ∨ (e = none ∧ st.State ≠ Running))
    (hreg : runtimeNode ≠ [])
    (hname : M.TaskName oneTask.Key ≠ "")
    (hrev : w.store.asOf oneTask.Version = .ok kvs)
    (hdata : lookup kvs (M.FullGlobalTask (M.TaskName oneTask.Key)) = some d)
    (hsnap : (oneTask.State.IsRemove && !oneTask.State.InRuntime && !oneTask.State.IsFailed)
      = true) :
    assign M runtimeNode rnd w oneTask failover =
      (.ret none,
        { w with
          store := (w.store.delete (M.FullGlobalTask (M.TaskName oneTask.Key))).delete
            (M.FullGlobalTaskState (M.TaskName oneTask.Key))
          trace := .delete (M.FullGlobalTaskState (M.TaskName oneTask.Key)) ::
            .delete (M.FullGlobalTask (M.TaskName oneTask.Key)) ::
            .get (M.FullGlobalTask (M.TaskName oneTask.Key)) oneTask.Version ::
            .get oneTask.Key 0 :: w.trace }) := by
  have hlen : (runtimeNode.length == 0) = false := by
    cases runtimeNode with
    | nil => exact absurd rfl hreg
    | cons a l => simp
  have hg : (!failover && e.isSome) = false ∧ (!failover && st.IsRunning) = false := by
    rcases hgate with h | ⟨h1, h2⟩
    · simp [h]
    · simp [h1, State.IsRunning, h2]
  have hf1 : ({ w with trace := Request.get oneTask.Key 0 :: w.trace } : World).faults = [] := hf
  unfold assign
  rw [Get_current w _ hf]
  simp only [hkey, Option.toList, hdec, hg.1, hg.2, selectRuntimeNode, hlen]
  rw [Get_asOf _ _ _ kvs hf1 hrev]
  simp [hname, hdata, hsnap, Delete, World.send, hf]

/-- C6: for a task whose incoming snapshot has State = Remove with InRuntime = false
(hence not Failed), when no request fails in transport, the state key is present and, unless
failover is set, its record decodes and is not Running (as when the stored record is itself
Remove), the registry is not empty, the task name derives from the key and the data record
is present at the pinned revision: `assign` returns `nil`, sends two deletes and no
transaction, and afterwards the data record and the state record are gone and every other
key is as before. -/
theorem assign_remove_cleanup (M : Model) (runtimeNode : Registry) (rnd : Nat) (w : World)
    (oneTask : KeyVal) (failover : Bool) (kv0 d : KeyValue) (st : State) (e : GoError)
    (kvs : List KeyValue)
    (hf : w.faults = [])
    (hkey : w.store.find? oneTask.Key = some kv0)
    (hdec : M.ValueToState kv0.Value = (st, e))
    (hgate : failover = true ∨ (e = none ∧ st.State ≠ Running))
    (hstate : oneTask.State.State = Remove) (hin : oneTask.State.InRuntime = false)
    (hreg : runtimeNode ≠ [])
    (hname : M.TaskName oneTask.Key ≠ "")
    (hrev : w.store.asOf oneTask.Version = .ok kvs)
    (hdata : lookup kvs (M.FullGlobalTask (M.TaskName oneTask.Key)) = some d) :
    (assign M runtimeNode rnd w oneTask failover).1 = .ret none ∧
    (assign M runtimeNode rnd w oneTask failover).2.trace =
      .delete (M.FullGlobalTaskState (M.TaskName oneTask.Key)) ::
      .delete (M.FullGlobalTask (M.TaskName oneTask.Key)) ::
      .get (M.FullGlobalTask (M.TaskName oneTask.Key)) oneTask.Version ::
      .get oneTask.Key 0 :: w.trace ∧
    (assign M runtimeNode rnd w oneTask failover).2.store.find?
      (M.FullGlobalTask (M.TaskName oneTask.Key)) = none ∧
    (assign M runtimeNode rnd w oneTask failover).2.store.find?
      (M.FullGlobalTaskState (M.TaskName oneTask.Key)) = none ∧
    ∀ k, k ≠ M.FullGlobalTask (M.TaskName oneTask.Key) →
      k ≠ M.FullGlobalTaskState (M.TaskName oneTask.Key) →
      (assign M runtimeNode rnd w oneTask failover).2.store.find? k = w.store.find? k := by
  have hs : (oneTask.State.IsRemove && !oneTask.State.InRuntime && !oneTask.State.IsFailed)
      = true := by
    simp only [State.IsRemove, State.IsFailed, hstate, hin]
    decide
  rw [assign_remove M runtimeNode rnd w oneTask failover kv0 d st e kvs hf hkey hdec
    hgate hreg hname hrev hdata hs]
  refine ⟨rfl, rfl, ?_, find?_delete_self _ _, ?_⟩
  · by_cases hk : M.FullGlobalTask (M.TaskName oneTask.Key)
        = M.FullGlobalTaskState (M.TaskName oneTask.Key)
    · simp only
      rw [← hk]
      exact find?_delete_self _ _
    · simp only
      rw [find?_delete_of_ne _ _ _ hk]
      exact find?_delete_self _ _
  · intro k hk1 hk2
    simp only
    rw [find?_delete_of_ne _ _ _ hk2, find?_delete_of_ne _ _ _ hk1]

/-- C8: when the lock is acquired and `assign` returns, with an error or without,
`AssignMutexWithCb` returns `nil`: the error of `assign` is logged and dropped, and the
callback, if any, runs on whatever `assign` left. Only the errors of the session and of the
lock are returned. -/
theorem AssignMutexWithCb_drops_error (M : Model) (runtimeNode : Registry) (rnd : Nat)
    (w : World) (oneTask : KeyVal) (failover : Bool) (e : GoError)
    (h : (assign M runtimeNode rnd w oneTask failover).1 = .ret e) :
    AssignMutexWithCb M runtimeNode rnd .acquired w oneTask failover none =
      (.ret none, (assign M runtimeNode rnd w oneTask failover).2) ∧
    (∀ (f : World → Outcome Unit × World) (u : Unit) (w2 : World),
      f (assign M runtimeNode rnd w oneTask failover).2 = (.ret u, w2) →
      AssignMutexWithCb M runtimeNode rnd .acquired w oneTask failover (some f) =
        (.ret none, w2)) ∧
    (∀ (msg : String) (cb : Option (World → Outcome Unit × World)),
      AssignMutexWithCb M runtimeNode rnd (.lockFailed msg) w oneTask failover cb =
        (.ret (some msg), w) ∧
      AssignMutexWithCb M runtimeNode rnd (.sessionFailed msg) w oneTask failover cb =
        (.ret (some msg), w)) := by
  rcases hA : assign M runtimeNode rnd w oneTask failover with ⟨o, w1⟩
  rw [hA] at h
  simp only at h
  subst h
  refine ⟨?_, ?_, ?_⟩
  · simp [AssignMutexWithCb, TryLockUnlock, hA]
  · intro f u w2 hf
    simp only at hf
    simp [AssignMutexWithCb, TryLockUnlock, hA, hf]
  · intro msg cb
    exact ⟨rfl, rfl⟩

/-- With a response that holds the state record, a non-empty action and no transport
failure, `UpdateLocalAndGlobal` returns. -/
theorem UpdateLocalAndGlobal_ret (M : Model) (w : World) (taskName node : String)
    (rsp : GetResponse) (action : String) (kv0 : KeyValue) (rest : List KeyValue)
    (hf : w.faults = []) (hrsp : rsp.Kvs = kv0 :: rest) (hact : action ≠ "") :
    (∃ e, (UpdateLocalAndGlobal M w taskName node rsp action).1 = .ret e) ∧
    (UpdateLocalAndGlobal M w taskName node rsp action).2.faults = [] := by
  unfold UpdateLocalAndGlobal
  simp only [hrsp]
  rcases hU : M.UpdateState kv0.Value node Running action with ⟨nv, _ | e⟩
  · by_cases hk : M.FullGlobalTaskState taskName = M.ToLocalTask node taskName
    · simp [hact, Txn, World.send, hf, hk]
    · by_cases hc : w.store.modRevision (M.FullGlobalTaskState taskName) = kv0.ModRevision
      · simp [hact, Txn, World.send, hf, hk, Cmp.holds, hc]
      · simp [hact, Txn, World.send, hf, hk, Cmp.holds, hc, Get, Store.asOf]
  · simp [hact, hf]

/-- With a response that holds the state record, a non-empty action and no transport
failure, the broadcast loop returns. -/
theorem assignRange_ret (M : Model) (taskName node : String) (rsp : GetResponse)
    (action : String) (kv0 : KeyValue) (rest : List KeyValue)
    (hrsp : rsp.Kvs = kv0 :: rest) (hact : action ≠ "") (reg : Registry) :
    ∀ (err : GoError) (w : World), w.faults = [] →
    ∃ e, (assignRange M taskName node rsp action reg err w).1 = .ret e := by
  induction reg with
  | nil => intro err w _; exact ⟨err, rfl⟩
  | cons a l ih =>
    intro err w hf
    unfold assignRange
    obtain ⟨⟨e1, h1⟩, h2⟩ := UpdateLocalAndGlobal_ret M w taskName node rsp action kv0 rest hf
      hrsp hact
    rcases hR : UpdateLocalAndGlobal M w taskName node rsp action with ⟨o, w1⟩
    rw [hR] at h1 h2
    simp only at h1 h2
    subst h1
    simp only
    split
    · exact ih e1 w1 h2
    · exact ⟨e1, rfl⟩

/-- With the state key present, a stored record whose Action is not empty and no transport
failure, `assign` returns. -/
theorem assign_ret (M : Model) (runtimeNode : Registry) (rnd : Nat) (w : World)
    (oneTask : KeyVal) (failover : Bool) (kv0 : KeyValue)
    (hf : w.faults = [])
    (hkey : w.store.find? oneTask.Key = some kv0)
    (hact : (M.ValueToState kv0.Value).1.Action ≠ "") :
    ∃ e, (assign M runtimeNode rnd w oneTask failover).1 = .ret e := by
  have hf1 : ({ w with trace := Request.get oneTask.Key 0 :: w.trace } : World).faults = [] := hf
  unfold assign
  rw [Get_current w _ hf]
  simp only [hkey, Option.toList]
  split
  · exact ⟨_, rfl⟩
  · split
    · exact ⟨_, rfl⟩
    · split
      · exact ⟨_, rfl⟩
      · split
        · exact ⟨_, rfl⟩
        · have hg2 : (Get { w with trace := Request.get oneTask.Key 0 :: w.trace }
              (M.FullGlobalTask (M.TaskName oneTask.Key)) oneTask.Version).2.faults = [] := by
            simp only [Get, World.send, hf]
            split <;> rfl
          rcases hG2 : Get { w with trace := Request.get oneTask.Key 0 :: w.trace }
              (M.FullGlobalTask (M.TaskName oneTask.Key)) oneTask.Version with ⟨r2, w2⟩
          rw [hG2] at hg2
          simp only at hg2
          cases r2 with
          | error e => exact ⟨_, rfl⟩
          | ok rsp =>
            simp only
            split
            · exact ⟨_, rfl⟩
            · split
              · exact ⟨_, rfl⟩
              · split
                · exact (UpdateLocalAndGlobal_ret M w2 _ _ _ _ kv0 [] hg2 rfl hact).1
                · split
                  · exact assignRange_ret M _ _ _ _ kv0 [] rfl hact runtimeNode _ w2 hg2
                  · exact ⟨_, rfl⟩

/-- When the task's state key is present, the stored record has a non-empty Action and no
request fails in transport, `AssignMutex` returns normally, whatever the lock answers, the
registry holds and the failover flag is. -/
theorem AssignMutex_returns (M : Model) (runtimeNode : Registry) (rnd : Nat)
    (lock : LockOutcome) (w : World) (oneTask : KeyVal) (failover : Bool) (kv0 : KeyValue)
    (hf : w.faults = [])
    (hkey : w.store.find? oneTask.Key = some kv0)
    (hact : (M.ValueToState kv0.Value).1.Action ≠ "") :
    (AssignMutex M runtimeNode rnd lock w oneTask failover).1 = .ret () := by
  obtain ⟨e, he⟩ := assign_ret M runtimeNode rnd w oneTask failover kv0 hf hkey hact
  rcases hA : assign M runtimeNode rnd w oneTask failover with ⟨o, w1⟩
  rw [hA] at he
  simp only at he
  subst he
  cases lock <;> simp [AssignMutex, AssignMutexWithCb, TryLockUnlock, hA]

/-! ## The code on sample inputs -/

/-- C3: the code on a Broadcast task in state Create with the registry {n1, n2}: `assign`
returns `nil`, the marker of the drawn node is written and the marker of the other node is
absent, whichever node is drawn. -/
theorem assign_broadcast_marks_one_node :
    ((assign exModel [("n1", ""), ("n2", "")] 0 (exWorld "Broadcast,start,Create,,0")
        (exTask "Broadcast,start,Create,,0") false).1 = .ret none ∧
      (assign exModel [("n1", ""), ("n2", "")] 0 (exWorld "Broadcast,start,Create,,0")
        (exTask "Broadcast,start,Create,,0") false).2.store.value? "/local/n1/build-1"
        = some CanRun ∧
      (assign exModel [("n1", ""), ("n2", "")] 0 (exWorld "Broadcast,start,Create,,0")
        (exTask "Broadcast,start,Create,,0") false).2.store.find? "/local/n2/build-1" = none) ∧
    ((assign exModel [("n1", ""), ("n2", "")] 1 (exWorld "Broadcast,start,Create,,0")
        (exTask "Broadcast,start,Create,,0") false).1 = .ret none ∧
      (assign exModel [("n1", ""), ("n2", "")] 1 (exWorld "Broadcast,start,Create,,0")
        (exTask "Broadcast,start,Create,,0") false).2.store.value? "/local/n2/build-1"
        = some CanRun ∧
      (assign exModel [("n1", ""), ("n2", "")] 1 (exWorld "Broadcast,start,Create,,0")
        (exTask "Broadcast,start,Create,,0") false).2.store.find? "/local/n1/build-1" = none) := by
  decide

/-- C6, as stated, fails: for a task in State = Remove with InRuntime = false and an empty
registry, `assign` returns an error and both records stay in the store. Both records also
stay when a non-empty registry is given and the data record is absent at the pinned revision
(`nil` is returned, the state record is kept), when the two deletes fail in transport (`nil`
is returned all the same), and when the snapshot says Remove while the stored record is
Running (the no-op of the Running guard). -/
theorem assign_remove_not_cleaned :
    ((exDecode "OneRuntime,stop,Remove,n1,0").1.State = Remove ∧
      (exDecode "OneRuntime,stop,Remove,n1,0").1.InRuntime = false ∧
      (assign exModel [] 0 (exWorld "OneRuntime,stop,Remove,n1,0")
        (exTask "OneRuntime,stop,Remove,n1,0") false).1
        = .ret (some "assign.runtimeNodes.size is 0") ∧
      (assign exModel [] 0 (exWorld "OneRuntime,stop,Remove,n1,0")
        (exTask "OneRuntime,stop,Remove,n1,0") false).2.store.value? "/tasks/build-1"
        = some "payload" ∧
      (assign exModel [] 0 (exWorld "OneRuntime,stop,Remove,n1,0")
        (exTask "OneRuntime,stop,Remove,n1,0") false).2.store.value? "/state/build-1"
        = some "OneRuntime,stop,Remove,n1,0") ∧
    ((assign exModel [("n1", "")] 0 (exWorldNoData "OneRuntime,stop,Remove,n1,0")
        (exTask "OneRuntime,stop,Remove,n1,0") false).1 = .ret none ∧
      (assign exModel [("n1", "")] 0 (exWorldNoData "OneRuntime,stop,Remove,n1,0")
        (exTask "OneRuntime,stop,Remove,n1,0") false).2.store.value? "/state/build-1"
        = some "OneRuntime,stop,Remove,n1,0") ∧
    ((assign exModel [("n1", "")] 0
        (exWorldWith "OneRuntime,stop,Remove,n1,0" [false, false, true, true])
        (exTask "OneRuntime,stop,Remove,n1,0") false).1 = .ret none ∧
      (assign exModel [("n1", "")] 0
        (exWorldWith "OneRuntime,stop,Remove,n1,0" [false, false, true, true])
        (exTask "OneRuntime,stop,Remove,n1,0") false).2.store.value? "/tasks/build-1"
        = some "payload" ∧
      (assign exModel [("n1", "")] 0
        (exWorldWith "OneRuntime,stop,Remove,n1,0" [false, false, true, true])
        (exTask "OneRuntime,stop,Remove,n1,0") false).2.store.value? "/state/build-1"
        = some "OneRuntime,stop,Remove,n1,0") ∧
    ((assign exModel [("n1", "")] 0 (exWorld "OneRuntime,start,Running,n1,1")
        (exTask "OneRuntime,stop,Remove,n1,0") false).1 = .ret none ∧
      (assign exModel [("n1", "")] 0 (exWorld "OneRuntime,start,Running,n1,1")
        (exTask "OneRuntime,stop,Remove,n1,0") false).2.store
        = (exWorld "OneRuntime,start,Running,n1,1").store) := by
  decide

/-- C8, as stated, fails: with the lock acquired and an empty registry, `assign` returns an
error and `AssignMutexWithCb` returns `nil`. -/
theorem AssignMutexWithCb_hides_assign_error :
    (assign exModel [] 0 (exWorld "OneRuntime,start,Create,,0")
      (exTask "OneRuntime,start,Create,,0") false).1
      = .ret (some "assign.runtimeNodes.size is 0") ∧
    (AssignMutexWithCb exModel [] 0 .acquired (exWorld "OneRuntime,start,Create,,0")
      (exTask "OneRuntime,start,Create,,0") false none).1 = .ret none := by
  decide

/-- C9: the code on a store in which the task's state key is absent: the first read of
`assign` returns no key-value and `rspState.Kvs[0]` panics, so `AssignMutex` panics. It also
panics when the re-read in the failure branch of `UpdateLocalAndGlobal` fails in transport
(a nil response is dereferenced; here in the second round of a broadcast), and, by the
explicit check of `UpdateLocalAndGlobal`, on a stored record with an empty Action. -/
theorem AssignMutex_panics :
    exWorldNoState.store.find? "/state/build-1" = none ∧
    (AssignMutex exModel [("nodeA", "")] 0 .acquired exWorldNoState
      (exTask "OneRuntime,start,Create,,0") false).1
      = .panic "index out of range [0] with length 0" ∧
    (AssignMutex exModel [("n1", ""), ("n2", "")] 0 .acquired
      (exWorldWith "Broadcast,start,Create,,0" [false, false, false, false, true])
      (exTask "Broadcast,start,Create,,0") false).1
      = .panic "invalid memory address or nil pointer dereference" ∧
    (AssignMutex exModel [("nodeA", "")] 0 .acquired (exWorld "OneRuntime,,Create,,0")
      (exTask "OneRuntime,,Create,,0") false).1 = .panic "action is empty" := by
  decide

/-- C7: the code on a store in which the task's state key is absent (as after the cleanup
of `assign`) and the data key is not at the caller's revision: `UpdateDataAndState` panics
on `rspState.Kvs[0]` instead of returning an error; the store is not changed. -/
theorem UpdateDataAndState_panics_without_state_key :
    exWorldNoState.store.find? "/state/build-1" = none ∧
    ((exWorldNoState.store.modRevision "/tasks/build-1" : Int) ≠ 1) ∧
    (UpdateDataAndState exModel id exWorldNoState "build-1" "payload2" 1 "Running" "stop").1
      = .panic "index out of range [0] with length 0" ∧
    (UpdateDataAndState exModel id exWorldNoState "build-1" "payload2" 1 "Running" "stop").2.store
      = exWorldNoState.store := by
  decide

/-- C2, as stated, fails: the stored record is OneRuntime, Create with the Action `start`,
the data record is present and the registry is {nodeA}, but the snapshot handed in says
Remove with InRuntime = false: `assign` returns `nil` after deleting both records, and
writes no local marker. -/
theorem assign_create_with_remove_snapshot_deletes :
    (exDecode "OneRuntime,start,Create,,0").1.Kind = OneRuntime ∧
    (exDecode "OneRuntime,start,Create,,0").1.State = Create ∧
    (exDecode "OneRuntime,start,Create,,0").1.Action = "start" ∧
    (assign exModel [("nodeA", "")] 0 (exWorld "OneRuntime,start,Create,,0")
      (exTask "OneRuntime,start,Remove,,0") false).1 = .ret none ∧
    (assign exModel [("nodeA", "")] 0 (exWorld "OneRuntime,start,Create,,0")
      (exTask "OneRuntime,start,Remove,,0") false).2.store.find? "/state/build-1" = none ∧
    (assign exModel [("nodeA", "")] 0 (exWorld "OneRuntime,start,Create,,0")
      (exTask "OneRuntime,start,Remove,,0") false).2.store.find? "/tasks/build-1" = none ∧
    (assign exModel [("nodeA", "")] 0 (exWorld "OneRuntime,start,Create,,0")
      (exTask "OneRuntime,start,Remove,,0") false).2.store.find? "/local/nodeA/build-1"
      = none := by
  decide

/-- C10: the code on a task whose data record is absent at the pinned revision: the read
succeeds with no key-value, and `assign` returns `nil`, not an error; the store is as before
and only the two reads are sent. -/
theorem assign_absent_data_returns_nil :
    (exWorldNoData "OneRuntime,start,Create,,0").store.asOf 2
      = .ok [exStateKV "OneRuntime,start,Create,,0"] ∧
    lookup [exStateKV "OneRuntime,start,Create,,0"] "/tasks/build-1" = none ∧
    (assign exModel [("nodeA", "")] 0 (exWorldNoData "OneRuntime,start,Create,,0")
      (exTask "OneRuntime,start,Create,,0") false).1 = .ret none ∧
    (assign exModel [("nodeA", "")] 0 (exWorldNoData "OneRuntime,start,Create,,0")
      (exTask "OneRuntime,start,Create,,0") false).2.store
      = (exWorldNoData "OneRuntime,start,Create,,0").store ∧
    (assign exModel [("nodeA", "")] 0 (exWorldNoData "OneRuntime,start,Create,,0")
      (exTask "OneRuntime,start,Create,,0") false).2.trace
      = [.get "/tasks/build-1" 2, .get "/state/build-1" 0] :=
  ⟨rfl, by decide, by decide, by decide, by decide⟩

/-! ## The theorems on sample inputs -/

theorem assign_running_noop_witness :
    (assign exModel [("n2", "")] 0 (exWorld "OneRuntime,start,Running,n1,0")
      (exTask "OneRuntime,start,Create,,0") false).1 = .ret none ∧
    (assign exModel [("n2", "")] 0 (exWorld "OneRuntime,start,Running,n1,0")
      (exTask "OneRuntime,start,Create,,0") false).2.store
      = (exWorld "OneRuntime,start,Running,n1,0").store ∧
    (assign exModel [("n2", "")] 0 (exWorld "OneRuntime,start,Running,n1,0")
      (exTask "OneRuntime,start,Create,,0") false).2.trace
      = [.get "/state/build-1" 0] :=
  assign_running_noop exModel [("n2", "")] 0 (exWorld "OneRuntime,start,Running,n1,0")
    (exTask "OneRuntime,start,Create,,0") (exStateKV "OneRuntime,start,Running,n1,0")
    (exDecode "OneRuntime,start,Running,n1,0").1 (by decide) (by decide) (by decide) (by decide)

theorem assign_oneRuntime_create_binds_witness :
    (assign exModel [("nodeA", "")] 0 (exWorld "OneRuntime,start,Create,,0")
      (exTask "OneRuntime,start,Create,,0") false).1 = .ret none ∧
    (assign exModel [("nodeA", "")] 0 (exWorld "OneRuntime,start,Create,,0")
      (exTask "OneRuntime,start,Create,,0") false).2.store.value? "/state/build-1"
      = some "OneRuntime,start,Running,nodeA,0" ∧
    (assign exModel [("nodeA", "")] 0 (exWorld "OneRuntime,start,Create,,0")
      (exTask "OneRuntime,start,Create,,0") false).2.store.value? "/local/nodeA/build-1"
      = some "CanRun" :=
  have h := assign_oneRuntime_create_binds exModel [("nodeA", "")] 0
    (exWorld "OneRuntime,start,Create,,0") (exTask "OneRuntime,start,Create,,0")
    (exStateKV "OneRuntime,start,Create,,0") exDataKV (exDecode "OneRuntime,start,Create,,0").1
    [exDataKV, exStateKV "OneRuntime,start,Create,,0"]
    rfl (by decide) (by decide) (by decide) (by decide) (by decide) (by decide) (by decide)
    (by decide) rfl (by decide) (by decide) (by decide) (by decide)
  ⟨h.1, h.2.2.1, h.2.2.2.1⟩

theorem assign_sticky_witness :
    (assign exModel [("n2", "")] 0 (exWorld "OneRuntime,start,CanRun,n1,0")
      (exTask "OneRuntime,start,CanRun,n1,0") false).1 = .ret none ∧
    (assign exModel [("n2", "")] 0 (exWorld "OneRuntime,start,CanRun,n1,0")
      (exTask "OneRuntime,start,CanRun,n1,0") false).2.store.value? "/state/build-1"
      = some "OneRuntime,start,Running,n1,0" ∧
    (assign exModel [("n2", "")] 0 (exWorld "OneRuntime,start,CanRun,n1,0")
      (exTask "OneRuntime,start,CanRun,n1,0") false).2.store.value? "/local/n1/build-1"
      = some "CanRun" :=
  (assign_sticky exModel [("n2", "")] 0 (exWorld "OneRuntime,start,CanRun,n1,0")
    (exTask "OneRuntime,start,CanRun,n1,0") (exStateKV "OneRuntime,start,CanRun,n1,0")
    (exDecode "OneRuntime,start,CanRun,n1,0").1 (by decide) (by decide) (by decide)
    (by decide)).2 rfl (by decide) (by decide) (by decide) (by decide) (by decide) (by decide)
    ⟨[exDataKV, exStateKV "OneRuntime,start,CanRun,n1,0"], exDataKV, rfl, by decide⟩
    (by decide) (by decide) (by decide) (by decide)

theorem assign_failover_rebinds_witness :
    (assign exModel [("n1", ""), ("n2", "")] 1 (exWorld "OneRuntime,start,Running,n1,0")
      (exTask "OneRuntime,start,Running,n1,0") true).1 = .ret none ∧
    (assign exModel [("n1", ""), ("n2", "")] 1 (exWorld "OneRuntime,start,Running,n1,0")
      (exTask "OneRuntime,start,Running,n1,0") true).2.store.value? "/state/build-1"
      = some "OneRuntime,start,Running,n2,0" ∧
    (assign exModel [("n1", ""), ("n2", "")] 1 (exWorld "OneRuntime,start,Running,n1,0")
      (exTask "OneRuntime,start,Running,n1,0") true).2.store.value? "/local/n2/build-1"
      = some "CanRun" :=
  have h := (assign_failover_rebinds exModel [("n1", ""), ("n2", "")] 1
    (exWorld "OneRuntime,start,Running,n1,0") (exTask "OneRuntime,start,Running,n1,0")
    (exStateKV "OneRuntime,start,Running,n1,0") (by decide)).2.2
    rfl (by decide) (by decide) (by decide) (by decide) (by decide)
    ⟨[exDataKV, exStateKV "OneRuntime,start,Running,n1,0"], exDataKV, rfl, by decide⟩
    (by decide) (by decide) (by decide)
  ⟨h.1, h.2.2.1, h.2.2.2⟩

theorem assign_remove_cleanup_witness :
    (assign exModel [("n1", "")] 0 (exWorld "OneRuntime,stop,Remove,n1,0")
      (exTask "OneRuntime,stop,Remove,n1,0") false).1 = .ret none ∧
    (assign exModel [("n1", "")] 0 (exWorld "OneRuntime,stop,Remove,n1,0")
      (exTask "OneRuntime,stop,Remove,n1,0") false).2.store.find? "/tasks/build-1" = none ∧
    (assign exModel [("n1", "")] 0 (exWorld "OneRuntime,stop,Remove,n1,0")
      (exTask "OneRuntime,stop,Remove,n1,0") false).2.store.find? "/state/build-1" = none :=
  have h := assign_remove_cleanup exModel [("n1", "")] 0
    (exWorld "OneRuntime,stop,Remove,n1,0") (exTask "OneRuntime,stop,Remove,n1,0") false
    (exStateKV "OneRuntime,stop,Remove,n1,0") exDataKV
    (exDecode "OneRuntime,stop,Remove,n1,0").1 none
    [exDataKV, exStateKV "OneRuntime,stop,Remove,n1,0"]
    rfl (by decide) (by decide) (by decide) (by decide) (by decide) (by decide) (by decide) rfl
    (by decide)
  ⟨h.1, h.2.2.1, h.2.2.2.1⟩

theorem UpdateDataAndState_atomic_witness :
    (UpdateDataAndState exModel id (exWorld "OneRuntime,start,Create,,0") "build-1" "payload2" 2
      "Running" "stop").1 = .ret none ∧
    (∃ e, (UpdateDataAndState exModel id
      (UpdateDataAndState exModel id (exWorld "OneRuntime,start,Create,,0") "build-1" "payload2"
        2 "Running" "stop").2 "build-1" "payload3" 2 "Failed" "start").1 = .ret (some e)) :=
  have h := UpdateDataAndState_atomic exModel id (exWorld "OneRuntime,start,Create,,0")
    "build-1" "payload2" 2 "Running" "stop" (exStateKV "OneRuntime,start,Create,,0")
    rfl (by decide)
  ⟨(h.2.1 (by decide) (by decide) (by decide) (by decide)).1,
    (h.2.2 "payload3" "Failed" "start"
      (h.2.1 (by decide) (by decide) (by decide) (by decide)).1 (by decide)).1⟩

theorem AssignMutexWithCb_drops_error_witness :
    AssignMutexWithCb exModel [] 0 .acquired (exWorld "Broadcast,start,Create,,0")
      (exTask "Broadcast,start,Create,,0") true none =
      (.ret none, (assign exModel [] 0 (exWorld "Broadcast,start,Create,,0")
        (exTask "Broadcast,start,Create,,0") true).2) :=
  (AssignMutexWithCb_drops_error exModel [] 0 (exWorld "Broadcast,start,Create,,0")
    (exTask "Broadcast,start,Create,,0") true (some "assign.runtimeNodes.size is 0")
    (by decide)).1

theorem AssignMutex_returns_witness :
    (AssignMutex exModel [("n1", ""), ("n2", "")] 0 .acquired
      (exWorld "Broadcast,start,Create,,0") (exTask "Broadcast,start,Create,,0") false).1
      = .ret () :=
  AssignMutex_returns exModel [("n1", ""), ("n2", "")] 0 .acquired
    (exWorld "Broadcast,start,Create,,0") (exTask "Broadcast,start,Create,,0") false
    (exStateKV "Broadcast,start,Create,,0") rfl (by decide) (by decide)

end Ktuo
